import Mathlib

/-!
Verification development for the `rustycpp` borrow-checker core.

The Rust source is shallowly embedded as executable Lean definitions:

* `HashMap<String, V>` is modelled as an association list `List (String × V)`
  with first-match lookup; `insert` replaces in place (preserving key order)
  or appends, matching the observable behaviour of map updates.  Where the
  Rust code iterates over a freshly created `HashMap` (whose iteration order
  is unspecified), the iteration order is made an explicit parameter.
* `HashSet<String>` is modelled as a duplicate-free list with
  insert-if-absent semantics.
* `Vec` push is list append; a stack (`Vec` with `push`/`pop`/`last`) is
  modelled head-first (list head = stack top).
* `Result<T, String>` values returned by the analysis functions are always
  `Ok` in the source, so the embedding returns the payload directly.

Identifier notes (Lean naming restrictions): the Rust `unsafe_depth` /
`EnterUnsafe` / `ExitUnsafe` / `is_in_unsafe_block` family is rendered as
`uncheckedDepth` / `enterUnchecked` / `exitUnchecked` / `isInUncheckedBlock`;
`SafetyAnnotation` / `LifetimeAnnotation` are rendered as `SafetyAnn` /
`LifetimeAnn`; the `from` / `to` fields are rendered `from_` / `to_`
(`from` is a Lean keyword); the `end` field of `InferredLifetime` is
rendered `end_`.
-/

/-! ## Association-list and set primitives -/

/-- `HashMap::get`: value of the first entry with the given key. -/
def lookupA {α : Type} : List (String × α) → String → Option α
  | [], _ => none
  | p :: rest, k => if p.1 = k then some p.2 else lookupA rest k

def lookupN {α : Type} : List (Nat × α) → Nat → Option α
  | [], _ => none
  | p :: rest, k => if p.1 = k then some p.2 else lookupN rest k

/-- `HashMap::insert`: replace the value of an existing entry in place,
otherwise append a new entry (keys of a map are unique, so "first entry"
is "the entry"). -/
def insertA {α : Type} : List (String × α) → String → α → List (String × α)
  | [], k, v => [(k, v)]
  | p :: rest, k, v => if p.1 = k then (k, v) :: rest else p :: insertA rest k v

def insertN {α : Type} : List (Nat × α) → Nat → α → List (Nat × α)
  | [], k, v => [(k, v)]
  | p :: rest, k, v => if p.1 = k then (k, v) :: rest else p :: insertN rest k v

def eraseA {α : Type} (m : List (String × α)) (k : String) : List (String × α) :=
  m.filter (fun p => ¬ (p.1 = k))

/-- `HashSet::insert`: add if absent (at the end, so the model is
insertion-ordered). -/
def insertSet (s : List String) (x : String) : List String :=
  if x ∈ s then s else s ++ [x]

/-- `HashSet::remove`. -/
def removeSet (s : List String) (x : String) : List String :=
  s.filter (fun y => ¬ (y = x))

/-! ## IR model (`src/ir/mod.rs`)

The statement vocabulary is the one consumed by `analysis/mod.rs`
(`process_statement` matches on `If`, `EnterUnsafe`, `ExitUnsafe` in
addition to the variants listed in `ir/mod.rs`; spec §3 lists the same
set). -/

inductive VariableType : Type
  | owned (ty : String)
  | reference (ty : String)
  | mutableReference (ty : String)
  | uniquePtr (ty : String)
  | sharedPtr (ty : String)
  | raw (ty : String)
  deriving DecidableEq

inductive BorrowKind : Type
  | immutable
  | mutable
  deriving DecidableEq

inductive OwnershipState : Type
  | owned
  | borrowed (kind : BorrowKind)
  | moved
  | uninitialized
  deriving DecidableEq

structure Lifetime : Type where
  name : String
  scope_start : Nat
  scope_end : Nat
  deriving DecidableEq

structure VariableInfo : Type where
  name : String
  ty : VariableType
  ownership : OwnershipState
  lifetime : Option Lifetime
  deriving DecidableEq

inductive IrExpression : Type
  | variable (v : String)
  | moveExpr (v : String)
  | borrowExpr (v : String) (kind : BorrowKind)
  | newExpr (ty : String)
  deriving DecidableEq

inductive IrStatement : Type
  | assign (lhs : String) (rhs : IrExpression)
  | move (from_ : String) (to_ : String)
  | borrow (from_ : String) (to_ : String) (kind : BorrowKind)
  | callExpr (func : String) (args : List String) (result : Option String)
  | ret (value : Option String)
  | drop (v : String)
  | enterScope
  | exitScope
  | enterLoop
  | exitLoop
  | enterUnchecked
  | exitUnchecked
  | ifStmt (thenBranch : List IrStatement) (elseBranch : Option (List IrStatement))

/-- A basic block; the `terminator` of the source is unused by every
analysis, so it is omitted. -/
structure BasicBlock : Type where
  id : Nat
  statements : List IrStatement

/-- `IrFunction`: the petgraph `ControlFlowGraph` is modelled as the blocks
in node-index order plus an explicit edge list on node indices
(`cfg.node_indices()` iterates the blocks in insertion order). -/
structure IrFunction : Type where
  name : String
  blocks : List BasicBlock
  edges : List (Nat × Nat)
  /-- the source field `variables` (keyword in Lean). -/
  vars : List (String × VariableInfo)

structure IrProgram : Type where
  functions : List IrFunction

/-- All statements of a function in `node_indices` order; the per-statement
index counters of the lifetime passes enumerate exactly this list. -/
def allStatements (f : IrFunction) : List IrStatement :=
  (f.blocks.map (·.statements)).flatten

/-! ## Ownership & borrow tracker (`src/analysis/mod.rs`) -/

structure BorrowInfo : Type where
  immutable_count : Nat
  has_mutable : Bool
  borrowers : List String
  deriving DecidableEq

structure ReferenceInfo : Type where
  is_reference : Bool
  is_mutable : Bool
  deriving DecidableEq

structure ScopeInfo : Type where
  local_borrows : List String
  deriving DecidableEq

structure TrackerState : Type where
  ownership : List (String × OwnershipState)
  borrows : List (String × BorrowInfo)
  reference_info : List (String × ReferenceInfo)
  deriving DecidableEq

structure LoopEntryState : Type where
  ownership : List (String × OwnershipState)
  borrows : List (String × BorrowInfo)
  deriving DecidableEq

structure OwnershipTracker : Type where
  ownership : List (String × OwnershipState)
  borrows : List (String × BorrowInfo)
  reference_info : List (String × ReferenceInfo)
  /-- stack of scope frames, head = innermost. -/
  scope_stack : List ScopeInfo
  loop_depth : Nat
  loop_entry_states : List LoopEntryState
  /-- the source's `unsafe_depth` counter. -/
  uncheckedDepth : Nat
  deriving DecidableEq

/-- `OwnershipTracker::new`: empty maps plus a root scope frame. -/
def OwnershipTracker.new : OwnershipTracker :=
  { ownership := [], borrows := [], reference_info := [],
    scope_stack := [⟨[]⟩], loop_depth := 0, loop_entry_states := [],
    uncheckedDepth := 0 }

def isInUncheckedBlock (t : OwnershipTracker) : Bool :=
  0 < t.uncheckedDepth

def setOwnership (t : OwnershipTracker) (v : String) (st : OwnershipState) :
    OwnershipTracker :=
  { t with ownership := insertA t.ownership v st }

def getOwnership (t : OwnershipTracker) (v : String) : Option OwnershipState :=
  lookupA t.ownership v

/-- `get_borrows`: clone-or-default. -/
def getBorrows (t : OwnershipTracker) (v : String) : BorrowInfo :=
  (lookupA t.borrows v).getD ⟨0, false, []⟩

/-- `add_borrow`: record `to_` as borrower of `from_`, note it in the
innermost scope frame, and bump the count for its kind. -/
def addBorrow (t : OwnershipTracker) (from_ to_ : String) (kind : BorrowKind) :
    OwnershipTracker :=
  let bi := (lookupA t.borrows from_).getD ⟨0, false, []⟩
  let bi := { bi with borrowers := insertSet bi.borrowers to_ }
  let stack := match t.scope_stack with
    | [] => []
    | s :: rest => { s with local_borrows := insertSet s.local_borrows to_ } :: rest
  let bi := match kind with
    | .immutable => { bi with immutable_count := bi.immutable_count + 1 }
    | .mutable => { bi with has_mutable := true }
  { t with borrows := insertA t.borrows from_ bi, scope_stack := stack }

def markAsReference (t : OwnershipTracker) (v : String) (isMut : Bool) :
    OwnershipTracker :=
  { t with reference_info := insertA t.reference_info v ⟨true, isMut⟩ }

def isReference (t : OwnershipTracker) (v : String) : Bool :=
  match lookupA t.reference_info v with
  | some i => i.is_reference
  | none => false

def isMutableReference (t : OwnershipTracker) (v : String) : Bool :=
  match lookupA t.reference_info v with
  | some i => i.is_reference && i.is_mutable
  | none => false

def enterScopeT (t : OwnershipTracker) : OwnershipTracker :=
  { t with scope_stack := ⟨[]⟩ :: t.scope_stack }

/-- `exit_scope`: pop a frame; every borrower recorded in it is removed
from its source's borrower set and from `reference_info`; borrow entries
left with no borrowers are dropped. -/
def exitScopeT (t : OwnershipTracker) : OwnershipTracker :=
  match t.scope_stack with
  | [] => t
  | scope :: rest =>
    let cleaned := scope.local_borrows.foldl
      (fun (acc : List (String × ReferenceInfo) × List (String × BorrowInfo)) bname =>
        (eraseA acc.1 bname,
         acc.2.map (fun p => (p.1, { p.2 with borrowers := removeSet p.2.borrowers bname }))))
      (t.reference_info, t.borrows)
    { t with reference_info := cleaned.1,
             borrows := cleaned.2.filter (fun p => ¬ p.2.borrowers.isEmpty),
             scope_stack := rest }

def enterLoopT (t : OwnershipTracker) : OwnershipTracker :=
  { t with loop_entry_states := ⟨t.ownership, t.borrows⟩ :: t.loop_entry_states,
           loop_depth := t.loop_depth + 1 }

/-- `exit_loop`: decrement the depth and pop the saved entry state (the
source's inspection loop over the popped state performs no mutation). -/
def exitLoopT (t : OwnershipTracker) : OwnershipTracker :=
  if 0 < t.loop_depth then
    { t with loop_depth := t.loop_depth - 1,
             loop_entry_states := t.loop_entry_states.tail }
  else t

def cloneState (t : OwnershipTracker) : TrackerState :=
  ⟨t.ownership, t.borrows, t.reference_info⟩

def restoreState (t : OwnershipTracker) (s : TrackerState) : OwnershipTracker :=
  { t with ownership := s.ownership, borrows := s.borrows,
           reference_info := s.reference_info }

/-- One step of `merge_states`' ownership loop: merge the `then`-branch
entry `p` against the `else`-branch map. -/
def mergeOwnershipStep (elseO : List (String × OwnershipState))
    (m : List (String × OwnershipState)) (p : String × OwnershipState) :
    List (String × OwnershipState) :=
  match lookupA elseO p.1 with
  | some elseOwn =>
    if p.2 = OwnershipState.moved ∧ elseOwn = OwnershipState.moved then
      insertA m p.1 OwnershipState.moved
    else if p.2 = OwnershipState.moved ∨ elseOwn = OwnershipState.moved then
      insertA m p.1 OwnershipState.owned
    else
      insertA m p.1 p.2
  | none => m

/-- `merge_states`: a variable is `moved` after a conditional only if moved
in both branch states; borrows are kept only with their common borrowers
(minimum counts, conjoined mutability); reference info survives only for
names known in both branch states. -/
def mergeStates (t : OwnershipTracker) (thenS elseS : TrackerState) :
    OwnershipTracker :=
  let ownership := thenS.ownership.foldl (mergeOwnershipStep elseS.ownership)
    t.ownership
  let borrows := thenS.borrows.foldl
    (fun m (p : String × BorrowInfo) =>
      match lookupA elseS.borrows p.1 with
      | some elseB =>
        let merged : BorrowInfo :=
          { borrowers := p.2.borrowers.filter (fun b => b ∈ elseB.borrowers),
            immutable_count := min p.2.immutable_count elseB.immutable_count,
            has_mutable := p.2.has_mutable && elseB.has_mutable }
        if merged.borrowers.isEmpty then m else insertA m p.1 merged
      | none => m)
    []
  let keep := (thenS.reference_info.map (·.1)).filter
    (fun v => (lookupA elseS.reference_info v).isSome)
  { t with ownership := ownership, borrows := borrows,
           reference_info := t.reference_info.filter (fun p => p.1 ∈ keep) }

/-- `clear_loop_locals`: drop reference info, borrower entries and
ownership for loop-local variables, reset counts of emptied borrow
entries, and drop them. -/
def clearLoopLocals (t : OwnershipTracker) (locals : List String) :
    OwnershipTracker :=
  let cleaned := locals.foldl
    (fun (acc : List (String × ReferenceInfo) × List (String × BorrowInfo) ×
          List (String × OwnershipState)) v =>
      (eraseA acc.1 v,
       acc.2.1.map (fun p => (p.1, { p.2 with borrowers := removeSet p.2.borrowers v })),
       eraseA acc.2.2 v))
    (t.reference_info, t.borrows, t.ownership)
  let borrows := cleaned.2.1.map
    (fun p => if p.2.borrowers.isEmpty then
        (p.1, { p.2 with immutable_count := 0, has_mutable := false })
      else p)
  { t with reference_info := cleaned.1,
           ownership := cleaned.2.2,
           borrows := borrows.filter (fun p => ¬ p.2.borrowers.isEmpty) }

/-- Error strings of `process_statement` (built exactly as in the source). -/
def cannotMoveRefMsg (v : String) : String :=
  "Cannot move out of '" ++ v ++ "' because it is behind a reference"

def useAfterMoveMsg (v : String) : String :=
  "Use after move: variable '" ++ v ++ "' has already been moved"

def borrowMovedMsg (v : String) : String :=
  "Cannot borrow '" ++ v ++ "' because it has been moved"

def immWhileMutMsg (v : String) : String :=
  "Cannot create immutable reference to '" ++ v ++ "': already mutably borrowed"

def mutWhileImmMsg (v : String) : String :=
  "Cannot create mutable reference to '" ++ v ++ "': already immutably borrowed"

def mutWhileMutMsg (v : String) : String :=
  "Cannot create mutable reference to '" ++ v ++ "': already mutably borrowed"

def constAssignMsg (v : String) : String :=
  "Cannot assign to '" ++ v ++ "' through const reference"

def assignMovedMsg (v : String) : String :=
  "Use after move: variable '" ++ v ++ "' has been moved"

def loopUseAfterMoveMsg (v : String) : String :=
  "Use after move in loop: variable '" ++ v ++
    "' was moved in first iteration and used again in second iteration"

/-- `check_statement_for_loop_errors`: second-iteration re-check of a loop
body statement against the post-first-iteration ownership snapshot. -/
def checkStatementForLoopErrors (s : IrStatement)
    (snapshot : List (String × OwnershipState)) (e : List String) :
    List String :=
  match s with
  | .move from_ _ =>
    if lookupA snapshot from_ = some OwnershipState.moved then
      e ++ [loopUseAfterMoveMsg from_]
    else e
  | .assign _ (.variable v) =>
    if lookupA snapshot v = some OwnershipState.moved then
      e ++ [loopUseAfterMoveMsg v]
    else e
  | _ => e

mutual

/-- `process_statement` of `src/analysis/mod.rs`. -/
def processStatement (s : IrStatement) (t : OwnershipTracker)
    (e : List String) : OwnershipTracker × List String :=
  match s with
  | .move from_ to_ =>
    if isInUncheckedBlock t then
      (setOwnership (setOwnership t from_ .moved) to_ .owned, e)
    else if isReference t from_ then
      (t, e ++ [cannotMoveRefMsg from_])
    else
      let e := if getOwnership t from_ = some OwnershipState.moved then
          e ++ [useAfterMoveMsg from_]
        else e
      if to_.startsWith "_temp_move_" ∨ to_.startsWith "_moved_" then
        (setOwnership t from_ .moved, e)
      else
        (setOwnership (setOwnership t from_ .moved) to_ .owned, e)
  | .borrow from_ to_ kind =>
    if isInUncheckedBlock t then
      (markAsReference (addBorrow t from_ to_ kind) to_ (kind = BorrowKind.mutable), e)
    else if getOwnership t from_ = some OwnershipState.moved then
      (t, e ++ [borrowMovedMsg from_])
    else
      let cb := getBorrows t from_
      let e := match kind with
        | .immutable => if cb.has_mutable then e ++ [immWhileMutMsg from_] else e
        | .mutable =>
          if 0 < cb.immutable_count then e ++ [mutWhileImmMsg from_]
          else if cb.has_mutable then e ++ [mutWhileMutMsg from_]
          else e
      (markAsReference (addBorrow t from_ to_ kind) to_ (kind = BorrowKind.mutable), e)
  | .assign lhs rhs =>
    if isInUncheckedBlock t then (t, e)
    else
      let e := if isReference t lhs ∧ ¬ isMutableReference t lhs then
          e ++ [constAssignMsg lhs]
        else e
      let e := match rhs with
        | .variable rv =>
          if getOwnership t rv = some OwnershipState.moved then
            e ++ [assignMovedMsg rv]
          else e
        | _ => e
      (t, e)
  | .enterScope => (enterScopeT t, e)
  | .exitScope => (exitScopeT t, e)
  | .enterLoop => (t, e)
  | .exitLoop => (t, e)
  | .enterUnchecked => ({ t with uncheckedDepth := t.uncheckedDepth + 1 }, e)
  | .exitUnchecked =>
    (if 0 < t.uncheckedDepth then { t with uncheckedDepth := t.uncheckedDepth - 1 }
     else t, e)
  | .ifStmt thenBranch elseBranch =>
    if isInUncheckedBlock t then (t, e)
    else
      let before := cloneState t
      let pThen := processStmts thenBranch t e
      let afterThen := cloneState pThen.1
      let t2 := restoreState pThen.1 before
      match elseBranch with
      | some elseStmts =>
        let pElse := processStmts elseStmts t2 pThen.2
        let afterElse := cloneState pElse.1
        (mergeStates pElse.1 afterThen afterElse, pElse.2)
      | none => (mergeStates t2 afterThen before, pThen.2)
  | .callExpr _ _ _ => (t, e)
  | .ret _ => (t, e)
  | .drop _ => (t, e)

/-- Sequential processing of a statement list (the bodies of `If`
branches). -/
def processStmts (l : List IrStatement) (t : OwnershipTracker)
    (e : List String) : OwnershipTracker × List String :=
  match l with
  | [] => (t, e)
  | s :: rest =>
    let p := processStatement s t e
    processStmts rest p.1 p.2

end

/-- Number of statements consumed from the tail after an `EnterLoop` until
(and including) the matching `ExitLoop`; the whole tail if unmatched.
This mirrors the `loop_end` scan of `check_function`. -/
def loopSpan (l : List IrStatement) (depth : Nat) : Nat :=
  match l with
  | [] => 0
  | s :: rest =>
    match s with
    | .enterLoop => 1 + loopSpan rest (depth + 1)
    | .exitLoop => if depth = 1 then 1 else 1 + loopSpan rest (depth - 1)
    | _ => 1 + loopSpan rest depth

/-- First pass over a loop body: collect loop-local borrow destinations and
process each statement. -/
def loopFirstPass (body : List IrStatement) (t : OwnershipTracker)
    (e : List String) :
    List String × OwnershipTracker × List String :=
  body.foldl
    (fun (acc : List String × OwnershipTracker × List String) s =>
      let locals := match s with
        | .borrow _ to_ _ => insertSet acc.1 to_
        | _ => acc.1
      let p := processStatement s acc.2.1 acc.2.2
      (locals, p.1, p.2))
    ([], t, e)

/-- Second pass over a loop body: each statement is first checked against
the post-first-iteration snapshot, then applied. -/
def loopSecondPass (body : List IrStatement)
    (snapshot : List (String × OwnershipState)) (t : OwnershipTracker)
    (e : List String) : OwnershipTracker × List String :=
  body.foldl
    (fun (acc : OwnershipTracker × List String) s =>
      let e1 := checkStatementForLoopErrors s snapshot acc.2
      processStatement s acc.1 e1)
    (t, e)

/-- The statement walk of `check_function`: ordinary statements go through
`process_statement`; an `EnterLoop` brackets a body that is processed
twice (clearing loop-local borrows between and after the passes).
Structured as recursion on a fuel counter; every step consumes at least
one statement, so the fuel `l.length` used by `goStmts` makes the
`fuel = 0` case unreachable except on the empty list. -/
def goStmtsF (fuel : Nat) (l : List IrStatement) (t : OwnershipTracker)
    (e : List String) : OwnershipTracker × List String :=
  match fuel, l with
  | 0, _ => (t, e)
  | _ + 1, [] => (t, e)
  | fuel + 1, s :: rest =>
    match s with
    | .enterLoop =>
      let k := loopSpan rest 1
      let body := rest.take (k - 1)
      let t := enterLoopT t
      let fp := loopFirstPass body t e
      let snapshot := fp.2.1.ownership
      let t1 := clearLoopLocals fp.2.1 fp.1
      let sp := loopSecondPass body snapshot t1 fp.2.2
      let t2 := clearLoopLocals sp.1 fp.1
      let t3 := exitLoopT t2
      goStmtsF fuel (rest.drop k) t3 sp.2
    | _ =>
      let p := processStatement s t e
      goStmtsF fuel rest p.1 p.2

def goStmts (l : List IrStatement) (t : OwnershipTracker) (e : List String) :
    OwnershipTracker × List String :=
  goStmtsF l.length l t e

/-- Tracker initialisation of `check_function`: seed ownership from the
variable map and mark reference-typed variables. -/
def initTracker (f : IrFunction) : OwnershipTracker :=
  f.vars.foldl
    (fun t p =>
      let t := setOwnership t p.1 p.2.ownership
      match p.2.ty with
      | .reference _ => markAsReference t p.1 false
      | .mutableReference _ => markAsReference t p.1 true
      | _ => t)
    OwnershipTracker.new

/-- `check_function` (always returns `Ok` in the source). -/
def checkFunction (f : IrFunction) : List String :=
  (f.blocks.foldl (fun (acc : OwnershipTracker × List String) b =>
      goStmts b.statements acc.1 acc.2)
    (initTracker f, [])).2

/-- `check_borrows`. -/
def checkBorrows (p : IrProgram) : List String :=
  p.functions.foldl (fun e f => e ++ checkFunction f) []

/-! ## Safety gate (`src/parser/safety_annotations.rs`)

`SafetyMode::Safe/Unsafe/Default` are rendered `safeMode` /
`uncheckedMode` / `defaultMode`. -/

inductive SafetyMode : Type
  | safeMode
  | uncheckedMode
  | defaultMode
  deriving DecidableEq

structure UncheckedRegion : Type where
  start_line : Nat
  end_line : Nat
  deriving DecidableEq

structure SafetyContext : Type where
  file_default : SafetyMode
  function_overrides : List (String × SafetyMode)
  block_regions : List UncheckedRegion
  deriving DecidableEq

/-- `SafetyContext::should_check_function`: the first matching override
wins; otherwise the file default must be `Safe`. -/
def shouldCheckFunction (ctx : SafetyContext) (funcName : String) : Bool :=
  match ctx.function_overrides.find? (fun p => p.1 = funcName) with
  | some p => p.2 = SafetyMode.safeMode
  | none => ctx.file_default = SafetyMode.safeMode

/-- `SafetyContext::is_line_unsafe`. -/
def isLineUnchecked (ctx : SafetyContext) (line : Nat) : Bool :=
  ctx.block_regions.any (fun r => r.start_line ≤ line ∧ line ≤ r.end_line)

/-! ## Header annotations (`src/parser/annotations.rs`, `header_cache.rs`) -/

inductive LifetimeAnn : Type
  | lifetime (name : String)
  | refAnn (name : String)
  | mutRefAnn (name : String)
  | ownedAnn
  deriving DecidableEq

inductive SafetyAnn : Type
  | safeAnn
  | uncheckedAnn
  deriving DecidableEq

structure LifetimeBound : Type where
  longer : String
  shorter : String
  deriving DecidableEq

structure FunctionSignature : Type where
  name : String
  return_lifetime : Option LifetimeAnn
  param_lifetimes : List (Option LifetimeAnn)
  lifetime_bounds : List LifetimeBound
  safety : Option SafetyAnn
  deriving DecidableEq

/-- `HeaderCache`: only the signature map is relevant to the analyses. -/
structure HeaderCache : Type where
  signatures : List (String × FunctionSignature)
  deriving DecidableEq

def getSignature (c : HeaderCache) (funcName : String) : Option FunctionSignature :=
  lookupA c.signatures funcName

def hasSignatures (c : HeaderCache) : Bool :=
  ¬ c.signatures.isEmpty

/-! ## Lifetime inference (`src/analysis/lifetime_inference.rs`) -/

structure InferredLifetime : Type where
  name : String
  start : Nat
  /-- the source field `end` (keyword in Lean). -/
  end_ : Nat
  dependencies : List String
  deriving DecidableEq

structure LifetimeInferencer : Type where
  lifetimes : List (String × InferredLifetime)
  last_use : List (String × Nat)
  first_def : List (String × Nat)
  lifetime_counter : Nat
  deriving DecidableEq

def LifetimeInferencer.new : LifetimeInferencer := ⟨[], [], [], 0⟩

/-- `first_def.entry(v).or_insert(index)`. -/
def firstDefEntry (m : List (String × Nat)) (v : String) (idx : Nat) :
    List (String × Nat) :=
  if (lookupA m v).isSome then m else insertA m v idx

/-- `LifetimeInferencer::process_statement` (definition/use tracking). -/
def infProcessStatement (inf : LifetimeInferencer) (s : IrStatement)
    (index : Nat) : LifetimeInferencer :=
  match s with
  | .assign lhs _ =>
    { inf with first_def := firstDefEntry inf.first_def lhs index,
               last_use := insertA inf.last_use lhs index }
  | .move from_ to_ =>
    let inf := { inf with last_use := insertA inf.last_use from_ index }
    { inf with first_def := firstDefEntry inf.first_def to_ index,
               last_use := insertA inf.last_use to_ index }
  | .borrow from_ to_ _ =>
    let inf := { inf with last_use := insertA inf.last_use from_ index }
    { inf with first_def := firstDefEntry inf.first_def to_ index,
               last_use := insertA inf.last_use to_ index }
  | .callExpr _ args result =>
    let inf := args.foldl
      (fun acc arg => { acc with last_use := insertA acc.last_use arg index }) inf
    match result with
    | some res =>
      { inf with first_def := firstDefEntry inf.first_def res index,
                 last_use := insertA inf.last_use res index }
    | none => inf
  | .ret (some val) =>
    { inf with last_use := insertA inf.last_use val index }
  | _ => inf

/-- `LifetimeInferencer::infer_dependencies`. -/
def infDependencies (inf : LifetimeInferencer) (s : IrStatement) :
    LifetimeInferencer :=
  match s with
  | .borrow from_ to_ _ =>
    (match lookupA inf.lifetimes to_ with
     | some toL =>
       let toL := { toL with dependencies := insertSet toL.dependencies from_ }
       { inf with lifetimes := insertA inf.lifetimes to_ toL }
     | none => inf)
  | .move from_ to_ =>
    (match lookupA inf.lifetimes from_ with
     | some fromL =>
       match lookupA inf.lifetimes to_ with
       | some toL =>
         let toL := { toL with dependencies :=
           fromL.dependencies.foldl insertSet toL.dependencies }
         { inf with lifetimes := insertA inf.lifetimes to_ toL }
       | none => inf
     | none => inf)
  | _ => inf

/-- `LifetimeInferencer::infer_function_lifetimes`: three passes.  The
second pass iterates the `first_def` map; the synthetic `'inferred_N`
names are assigned in that iteration order (they are never compared). -/
def inferFunctionLifetimes (f : IrFunction) : LifetimeInferencer :=
  let inf := ((allStatements f).foldl
    (fun (acc : LifetimeInferencer × Nat) s =>
      (infProcessStatement acc.1 s acc.2, acc.2 + 1))
    (LifetimeInferencer.new, 0)).1
  let inf := inf.first_def.foldl
    (fun acc p =>
      let lastUseIdx := (lookupA acc.last_use p.1).getD p.2
      let newL : InferredLifetime :=
        { name := "'inferred_" ++ toString acc.lifetime_counter,
          start := p.2, end_ := lastUseIdx, dependencies := [] }
      { acc with
        lifetimes := insertA acc.lifetimes p.1 newL,
        lifetime_counter := acc.lifetime_counter + 1 })
    inf
  (allStatements f).foldl infDependencies inf

/-- `LifetimeInferencer::lifetimes_overlap`. -/
def lifetimesOverlap (inf : LifetimeInferencer) (a b : String) : Bool :=
  match lookupA inf.lifetimes a, lookupA inf.lifetimes b with
  | some la, some lb => ¬ (la.end_ < lb.start ∨ lb.end_ < la.start)
  | _, _ => false

/-- `LifetimeInferencer::is_alive_at`. -/
def isAliveAt (inf : LifetimeInferencer) (v : String) (point : Nat) : Bool :=
  match lookupA inf.lifetimes v with
  | some l => l.start ≤ point ∧ point ≤ l.end_
  | none => false

def borrowNotAliveMsg (v : String) : String :=
  "Cannot borrow '" ++ v ++ "': variable is not alive at this point"

def moveNotAliveMsg (v : String) : String :=
  "Cannot move '" ++ v ++ "': variable is not alive at this point"

def conflictingBorrowMsg (to_ from_ other : String) : String :=
  "Cannot create mutable borrow '" ++ to_ ++ "': '" ++ from_ ++
    "' is already borrowed by '" ++ other ++ "'"

def danglingReturnMsg (val dep : String) : String :=
  "Potential dangling reference: returning '" ++ val ++
    "' which depends on local variable '" ++ dep ++ "'"

def isLikelyParameter (v : String) : Bool :=
  v.startsWith "param" ∨ v.startsWith "arg" ∨ v.length = 1

/-- The conflict loop of `infer_and_validate_lifetimes` for a mutable
borrow: one error per other tracked variable (distinct from the borrow
destination) whose dependency set contains the borrowed source and whose
lifetime overlaps the destination's.  `entries` is the `lifetimes` map in
its iteration order. -/
def mutableBorrowConflicts (inf : LifetimeInferencer)
    (entries : List (String × InferredLifetime)) (from_ to_ : String) :
    List String :=
  entries.filterMap
    (fun p =>
      if ¬ p.1 = to_ ∧ from_ ∈ p.2.dependencies ∧ lifetimesOverlap inf to_ p.1 then
        some (conflictingBorrowMsg to_ from_ p.1)
      else none)

/-- Errors of the validation loop of `infer_and_validate_lifetimes` for
one statement.  `ord` supplies the iteration order of the freshly built
`lifetimes` hash map (unspecified in the source); the plain entry point
uses the identity. -/
def statementValidationErrors
    (ord : List (String × InferredLifetime) → List (String × InferredLifetime))
    (f : IrFunction) (inf : LifetimeInferencer)
    (index : Nat) (s : IrStatement) : List String :=
  match s with
  | .borrow from_ to_ kind =>
    let e := if (lookupA inf.lifetimes from_).isSome ∧ ¬ isAliveAt inf from_ index
      then [borrowNotAliveMsg from_] else []
    (match kind with
     | .mutable => e ++ mutableBorrowConflicts inf (ord inf.lifetimes) from_ to_
     | .immutable => e)
  | .move from_ _ =>
    if ¬ isAliveAt inf from_ index then [moveNotAliveMsg from_] else []
  | .ret (some val) =>
    (match lookupA f.vars val with
     | some vi =>
       match vi.ty with
       | .reference _ | .mutableReference _ =>
         (match lookupA inf.lifetimes val with
          | some l =>
            l.dependencies.filterMap
              (fun dep => if ¬ isLikelyParameter dep then
                  some (danglingReturnMsg val dep)
                else none)
          | none => [])
       | _ => []
     | none => [])
  | _ => []

/-- `infer_and_validate_lifetimes` (always `Ok` in the source),
parametrised by the hash-map iteration order `ord`. -/
def inferAndValidateLifetimesOrd
    (ord : List (String × InferredLifetime) → List (String × InferredLifetime))
    (f : IrFunction) : List String :=
  let inf := inferFunctionLifetimes f
  ((allStatements f).foldl
    (fun (acc : List String × Nat) s =>
      (acc.1 ++ statementValidationErrors ord f inf acc.2 s, acc.2 + 1))
    ([], 0)).1

/-- `infer_and_validate_lifetimes` with the model's canonical iteration
order (first-definition order). -/
def inferAndValidateLifetimes (f : IrFunction) : List String :=
  inferAndValidateLifetimesOrd (fun l => l) f

/-! ## Annotated lifetime checker (`src/analysis/lifetime_checker.rs`) -/

structure LifetimeScope : Type where
  variable_lifetimes : List (String × String)
  constraints : List LifetimeBound
  owned_variables : List String
  deriving DecidableEq

def LifetimeScope.new : LifetimeScope := ⟨[], [], []⟩

def setLifetime (sc : LifetimeScope) (v lt : String) : LifetimeScope :=
  { sc with variable_lifetimes := insertA sc.variable_lifetimes v lt }

def markOwned (sc : LifetimeScope) (v : String) : LifetimeScope :=
  { sc with owned_variables := insertSet sc.owned_variables v }

def getLifetime (sc : LifetimeScope) (v : String) : Option String :=
  lookupA sc.variable_lifetimes v

def isOwned (sc : LifetimeScope) (v : String) : Bool :=
  v ∈ sc.owned_variables

def addConstraintLS (sc : LifetimeScope) (c : LifetimeBound) : LifetimeScope :=
  { sc with constraints := sc.constraints ++ [c] }

/-- The `for constraint in &self.constraints` loop inside
`check_outlives_transitive`; `recur` is the recursive call one fuel level
down. -/
def checkOutlivesLoop (shorter longer : String)
    (recur : String → List String → Bool × List String) :
    List LifetimeBound → List String → Bool × List String
  | [], visited => (false, visited)
  | c :: rs, visited =>
    if c.longer = longer then
      if c.shorter = shorter then (true, visited)
      else
        let r := recur c.shorter visited
        if r.1 then r else checkOutlivesLoop shorter longer recur rs r.2
    else checkOutlivesLoop shorter longer recur rs visited

/-- `check_outlives_transitive`: depth-first search over the registered
bounds with a visited set.  The recursion is bounded by `fuel`; with the
fuel used by `checkOutlives` (`constraints.length + 1`) the `fuel = 0`
branch coincides with the source's visited-set guard: each recursion
level inserts one fresh name into `visited`, the inserted names beyond
the first are constraint `shorter` fields, so by the time the fuel is
exhausted every name the search can reach is already in `visited` and
the source would return `false` as well. -/
def checkOutlivesTransGo (cs : List LifetimeBound) (shorter : String) :
    Nat → String → List String → Bool × List String
  | 0, _, visited => (false, visited)
  | fuel + 1, longer, visited =>
    if longer ∈ visited then (false, visited)
    else
      checkOutlivesLoop shorter longer
        (fun lg vis => checkOutlivesTransGo cs shorter fuel lg vis)
        cs (longer :: visited)

/-- `LifetimeScope::check_outlives`: reflexivity, then a direct-bound
check, then the transitive depth-first search. -/
def checkOutlives (sc : LifetimeScope) (longer shorter : String) : Bool :=
  if longer = shorter then true
  else if sc.constraints.any (fun c => c.longer = longer ∧ c.shorter = shorter) then
    true
  else
    (checkOutlivesTransGo sc.constraints shorter (sc.constraints.length + 1)
      longer []).1

/-- `str::contains` (substring test). -/
def strContainsSub (s sub : String) : Bool :=
  (List.range (s.length + 1)).any (fun i => sub.toList.isPrefixOf (s.toList.drop i))

/-- `is_parameter` of `lifetime_checker.rs` (name heuristic only). -/
def isParameterLC (v : String) : Bool :=
  v.startsWith "param" ∨ v.startsWith "arg"

def returningLocalRefMsg (v : String) : String :=
  "Returning reference to local variable '" ++ v ++
    "' - this will create a dangling reference"

/-- `check_return_lifetime`: flag every function variable whose name
occurs in the returned value's tracked lifetime and that is not a
parameter. -/
def checkReturnLifetime (value : String) (f : IrFunction)
    (sc : LifetimeScope) : List String :=
  match getLifetime sc value with
  | some lt =>
    f.vars.filterMap
      (fun p =>
        if strContainsSub lt p.1 ∧ ¬ isParameterLC p.1 then
          some (returningLocalRefMsg p.1)
        else none)
  | none => []

/-- `map_lifetime_to_actual`: positional placeholders `a`,`b`,`c` map to
argument positions 0,1,2; any other name passes through. -/
def mapLifetimeToActual (lifetimeName : String)
    (argLifetimes : List (Option String)) : Option String :=
  if lifetimeName = "a" then (argLifetimes[0]?).join
  else if lifetimeName = "b" then (argLifetimes[1]?).join
  else if lifetimeName = "c" then (argLifetimes[2]?).join
  else some ("'" ++ lifetimeName)

def expectsRefMsg (func : String) (i : Nat) (arg : String) : String :=
  "Function '" ++ func ++ "' expects a reference for parameter " ++
    toString (i + 1) ++ ", but '" ++ arg ++ "' is owned"

def expectsOwnedMsg (func : String) (i : Nat) (arg : String) : String :=
  "Function '" ++ func ++ "' expects ownership of parameter " ++
    toString (i + 1) ++ ", but '" ++ arg ++ "' is a reference"

def boundViolatedMsg (func longer shorter : String) : String :=
  "Lifetime constraint violated in call to '" ++ func ++ "': '" ++ longer ++
    "' must outlive '" ++ shorter ++ "'"

/-- `check_function_call`: argument-count mismatch is a silent no-op;
otherwise parameter kind checks followed by outlives-bound checks (the
return-lifetime match in the source has no effect). -/
def checkFunctionCall (funcName : String) (args : List String)
    (signature : FunctionSignature) (sc : LifetimeScope) : List String :=
  if ¬ args.length = signature.param_lifetimes.length then []
  else
    let argLifetimes := args.enum.map
      (fun p =>
        match getLifetime sc p.2 with
        | some lt => some lt
        | none => if isOwned sc p.2 then none else some ("'arg" ++ toString p.1))
    let paramErrs := (args.zip signature.param_lifetimes).enum.filterMap
      (fun q =>
        match q.2.2 with
        | some (.refAnn _) =>
          if isOwned sc q.2.1 then some (expectsRefMsg funcName q.1 q.2.1) else none
        | some (.mutRefAnn _) =>
          if isOwned sc q.2.1 then some (expectsRefMsg funcName q.1 q.2.1) else none
        | some .ownedAnn =>
          if ¬ isOwned sc q.2.1 then some (expectsOwnedMsg funcName q.1 q.2.1)
          else none
        | _ => none)
    let boundErrs := signature.lifetime_bounds.filterMap
      (fun b =>
        match mapLifetimeToActual b.longer argLifetimes,
              mapLifetimeToActual b.shorter argLifetimes with
        | some lg, some sh =>
          if ¬ checkOutlives sc lg sh then
            some (boundViolatedMsg funcName lg sh)
          else none
        | _, _ => none)
    paramErrs ++ boundErrs

/-- `check_function_lifetimes`: per-function scope initialisation followed
by the statement walk. -/
def checkFunctionLifetimes (f : IrFunction) (cache : HeaderCache) : List String :=
  let sc := f.vars.foldl
    (fun sc p =>
      match p.2.ty with
      | .reference _ => setLifetime sc p.1 ("'" ++ p.1)
      | .mutableReference _ => setLifetime sc p.1 ("'" ++ p.1)
      | _ => markOwned sc p.1)
    LifetimeScope.new
  ((allStatements f).foldl
    (fun (acc : LifetimeScope × List String) s =>
      match s with
      | .callExpr func args _ =>
        (match getSignature cache func with
         | some sig => (acc.1, acc.2 ++ checkFunctionCall func args sig acc.1)
         | none => acc)
      | .borrow from_ to_ _ =>
        (match getLifetime acc.1 from_ with
         | some lt => (setLifetime acc.1 to_ lt, acc.2)
         | none =>
           if isOwned acc.1 from_ then (setLifetime acc.1 to_ ("'" ++ to_), acc.2)
           else acc)
      | .ret (some value) => (acc.1, acc.2 ++ checkReturnLifetime value f acc.1)
      | _ => acc)
    (sc, [])).2

/-- `check_lifetimes_with_annotations` (always `Ok` in the source). -/
def checkLifetimesWithAnns (p : IrProgram) (cache : HeaderCache) : List String :=
  p.functions.foldl (fun e f => e ++ checkFunctionLifetimes f cache) []

/-! ## Scoped lifetime tracker (`src/analysis/scope_lifetime.rs`) -/

inductive ScopeKind : Type
  | functionK
  | blockK
  | loopK
  | conditionalK
  deriving DecidableEq

structure Scope : Type where
  id : Nat
  parent : Option Nat
  kind : ScopeKind
  local_variables : List String
  local_references : List String
  deriving DecidableEq

inductive ConstraintKind : Type
  | outlives (longer shorter : String)
  | equalK (a b : String)
  | borrowedFrom (reference source : String)
  | mustLiveUntil (lifetime : String) (scope_id : Nat)
  deriving DecidableEq

structure LifetimeConstraint : Type where
  kind : ConstraintKind
  location : String
  deriving DecidableEq

structure ScopedLifetimeTracker : Type where
  scopes : List (Nat × Scope)
  variable_scope : List (String × Nat)
  lifetime_scopes : List (String × (Nat × Nat))
  constraints : List LifetimeConstraint
  next_scope_id : Nat
  deriving DecidableEq

def ScopedLifetimeTracker.new : ScopedLifetimeTracker := ⟨[], [], [], [], 0⟩

def pushScope (tr : ScopedLifetimeTracker) (kind : ScopeKind)
    (parent : Option Nat) : Nat × ScopedLifetimeTracker :=
  let id := tr.next_scope_id
  (id, { tr with next_scope_id := id + 1,
                 scopes := insertN tr.scopes id
                   ⟨id, parent, kind, [], []⟩ })

def declareVariable (tr : ScopedLifetimeTracker) (v : String) (scopeId : Nat) :
    ScopedLifetimeTracker :=
  match lookupN tr.scopes scopeId with
  | some sc =>
    { tr with scopes := insertN tr.scopes scopeId
                ({ sc with local_variables := insertSet sc.local_variables v }),
              variable_scope := insertA tr.variable_scope v scopeId }
  | none => tr

def declareReference (tr : ScopedLifetimeTracker) (refName : String)
    (scopeId : Nat) : ScopedLifetimeTracker :=
  match lookupN tr.scopes scopeId with
  | some sc =>
    { tr with scopes := insertN tr.scopes scopeId
                ({ sc with local_references := insertSet sc.local_references refName }),
              variable_scope := insertA tr.variable_scope refName scopeId }
  | none => tr

/-- `ScopedLifetimeTracker::check_outlives`: interval containment on
registered scope ranges, degrading to name equality. -/
def checkOutlivesScoped (tr : ScopedLifetimeTracker) (longer shorter : String) :
    Bool :=
  match lookupA tr.lifetime_scopes longer, lookupA tr.lifetime_scopes shorter with
  | some lr, some sr => lr.1 ≤ sr.1 ∧ sr.2 ≤ lr.2
  | _, _ => longer = shorter

/-- The parent-chain walk of `is_ancestor_scope`.  The source's `while`
loop terminates because the driver only ever sets a scope's parent to a
previously created scope (smaller id), so a chain visits strictly
decreasing ids; `scopes.length + 1` fuel covers every such chain. -/
def isAncestorGo (tr : ScopedLifetimeTracker) (a : Nat) :
    Nat → Nat → Bool
  | 0, _ => false
  | fuel + 1, current =>
    match lookupN tr.scopes current with
    | some sc =>
      match sc.parent with
      | some p => if p = a then true else isAncestorGo tr a fuel p
      | none => false
    | none => false

def isAncestorScope (tr : ScopedLifetimeTracker) (a b : Nat) : Bool :=
  if a = b then true
  else isAncestorGo tr a (tr.scopes.length + 1) b

def isAliveInScope (tr : ScopedLifetimeTracker) (v : String) (scopeId : Nat) :
    Bool :=
  match lookupA tr.variable_scope v with
  | some vs => isAncestorScope tr vs scopeId
  | none => false

def addConstraintTr (tr : ScopedLifetimeTracker) (c : LifetimeConstraint) :
    ScopedLifetimeTracker :=
  { tr with constraints := tr.constraints ++ [c] }

def scopedOutlivesMsg (longer shorter loc : String) : String :=
  "Lifetime '" ++ longer ++ "' does not outlive '" ++ shorter ++ "' at " ++ loc

def borrowedFromMsg (reference source loc : String) : String :=
  "Reference '" ++ reference ++ "' borrows from '" ++ source ++
    "' which is not alive at " ++ loc

def mustLiveUntilMsg (lifetime : String) (scopeId endScope : Nat)
    (loc : String) : String :=
  "Lifetime '" ++ lifetime ++ "' must live until scope " ++ toString scopeId ++
    " but ends at scope " ++ toString endScope ++ " at " ++ loc

/-- `validate_constraints`. -/
def validateConstraints (tr : ScopedLifetimeTracker) : List String :=
  tr.constraints.foldl
    (fun e c =>
      match c.kind with
      | .outlives longer shorter =>
        if ¬ checkOutlivesScoped tr longer shorter then
          e ++ [scopedOutlivesMsg longer shorter c.location]
        else e
      | .borrowedFrom reference source =>
        (match lookupA tr.variable_scope reference with
         | some refScope =>
           if ¬ isAliveInScope tr source refScope then
             e ++ [borrowedFromMsg reference source c.location]
           else e
         | none => e)
      | .mustLiveUntil lifetime scopeId =>
        (match lookupA tr.lifetime_scopes lifetime with
         | some r =>
           if ¬ isAncestorScope tr r.2 scopeId ∧ ¬ r.2 = scopeId then
             e ++ [mustLiveUntilMsg lifetime scopeId r.2 c.location]
           else e
         | none => e)
      | .equalK _ _ => e)
    []

/-- `is_parameter` of `scope_lifetime.rs` (prefix heuristic or
`Owned` ownership in the variable map). -/
def isParameterScoped (v : String) (f : IrFunction) : Bool :=
  v.startsWith "param" || v.startsWith "arg" ||
    (match lookupA f.vars v with
     | some i => decide (i.ownership = OwnershipState.owned)
     | none => false)

def scopedBorrowNotAliveMsg (v : String) : String :=
  "Cannot borrow from '" ++ v ++ "': variable is not alive in current scope"

def scopedDanglingMsg (v : String) : String :=
  "Returning reference to local variable '" ++ v ++
    "' - will create dangling reference"

/-- `check_call_lifetimes`: queue the signature's outlives bounds and
declare the result variable; never reports errors directly. -/
def checkCallLifetimes (funcName : String) (result : Option String)
    (signature : FunctionSignature) (scopeId : Nat)
    (tr : ScopedLifetimeTracker) : ScopedLifetimeTracker :=
  let tr := signature.lifetime_bounds.foldl
    (fun tr b => addConstraintTr tr
      ⟨.outlives b.longer b.shorter, "call to " ++ funcName⟩)
    tr
  match result, signature.return_lifetime with
  | some rv, some (.refAnn _) => declareReference tr rv scopeId
  | some rv, some (.mutRefAnn _) => declareReference tr rv scopeId
  | some rv, some .ownedAnn => declareVariable tr rv scopeId
  | _, _ => tr

/-- `analyze_block`. -/
def analyzeBlock (b : BasicBlock) (scopeId : Nat)
    (tr : ScopedLifetimeTracker) (f : IrFunction) (cache : HeaderCache) :
    ScopedLifetimeTracker × List String :=
  b.statements.foldl
    (fun (acc : ScopedLifetimeTracker × List String) s =>
      match s with
      | .borrow from_ to_ _ =>
        if ¬ isAliveInScope acc.1 from_ scopeId then
          (acc.1, acc.2 ++ [scopedBorrowNotAliveMsg from_])
        else
          let tr := addConstraintTr acc.1
            ⟨.borrowedFrom to_ from_, "borrow of " ++ to_ ++ " from " ++ from_⟩
          (declareReference tr to_ scopeId, acc.2)
      | .ret (some val) =>
        (match lookupA acc.1.variable_scope val with
         | some varScope =>
           if ¬ varScope = 0 ∧ ¬ isParameterScoped val f then
             match lookupA f.vars val with
             | some vi =>
               (match vi.ty with
                | .reference _ => (acc.1, acc.2 ++ [scopedDanglingMsg val])
                | .mutableReference _ => (acc.1, acc.2 ++ [scopedDanglingMsg val])
                | _ => acc)
             | none => acc
           else acc
         | none => acc)
      | .callExpr func _ result =>
        (match getSignature cache func with
         | some sig => (checkCallLifetimes func result sig scopeId acc.1, acc.2)
         | none => acc)
      | _ => acc)
    (tr, [])

/-- The breadth-first block walk of `analyze_function_scopes`: a queue of
(node, scope) pairs, each node visited at most once; successors are the
outgoing edges of the CFG.  (An out-of-range node index cannot occur on a
well-formed petgraph CFG; the model marks it visited and skips it.)
Structured as recursion on a fuel counter: every iteration dequeues one
pair, and at most `blocks.length` iterations (the first visit of each
valid node) enqueue at most `edges.length` pairs each, so the fuel
`queue.length + blocks.length * edges.length` used by `scopeBfs` is
never exhausted while the queue is non-empty. -/
def scopeBfsF (f : IrFunction) (cache : HeaderCache) : Nat → List Nat →
    List (Nat × Nat) → ScopedLifetimeTracker → List String →
    ScopedLifetimeTracker × List String
  | 0, _, _, tr, errors => (tr, errors)
  | _ + 1, _, [], tr, errors => (tr, errors)
  | fuel + 1, visited, q :: rest, tr, errors =>
    if q.1 ∈ visited then
      scopeBfsF f cache fuel visited rest tr errors
    else if hn : q.1 < f.blocks.length then
      let block := f.blocks.get ⟨q.1, hn⟩
      let res := analyzeBlock block q.2 tr f cache
      let succs := (f.edges.filter (fun e => e.1 = q.1)).map (fun e => (e.2, q.2))
      scopeBfsF f cache fuel (q.1 :: visited) (rest ++ succs) res.1 (errors ++ res.2)
    else
      scopeBfsF f cache fuel (q.1 :: visited) rest tr errors

def scopeBfs (f : IrFunction) (cache : HeaderCache) (visited : List Nat)
    (queue : List (Nat × Nat)) (tr : ScopedLifetimeTracker)
    (errors : List String) : ScopedLifetimeTracker × List String :=
  scopeBfsF f cache (queue.length + f.blocks.length * f.edges.length)
    visited queue tr errors

/-- `analyze_function_scopes` (always `Ok` in the source). -/
def analyzeFunctionScopes (f : IrFunction) (cache : HeaderCache) :
    List String :=
  let p := pushScope ScopedLifetimeTracker.new ScopeKind.functionK none
  let funcScope := p.1
  let tr := f.vars.foldl
    (fun tr q =>
      let tr := declareVariable tr q.1 funcScope
      match q.2.ty with
      | .reference _ =>
        let tr := declareReference tr q.1 funcScope
        let key := "'param_" ++ q.1
        { tr with lifetime_scopes := insertA tr.lifetime_scopes key (funcScope, funcScope) }
      | .mutableReference _ =>
        let tr := declareReference tr q.1 funcScope
        let key := "'param_" ++ q.1
        { tr with lifetime_scopes := insertA tr.lifetime_scopes key (funcScope, funcScope) }
      | _ => tr)
    p.2
  let entryNodes := (List.range f.blocks.length).filter
    (fun n => ¬ f.edges.any (fun e => e.2 = n))
  let res := scopeBfs f cache [] (entryNodes.map (fun n => (n, funcScope))) tr []
  res.2 ++ validateConstraints res.1

/-- `check_scoped_lifetimes` (always `Ok` in the source). -/
def checkScopedLifetimes (p : IrProgram) (cache : HeaderCache) : List String :=
  p.functions.foldl (fun e f => e ++ analyzeFunctionScopes f cache) []

/-! ## Pipeline entry point (`check_borrows_with_safety_context`) -/

def hasAnySafeFunctions (p : IrProgram) (cache : HeaderCache) : Bool :=
  p.functions.any
    (fun f =>
      match getSignature cache f.name with
      | some sig => sig.safety = some SafetyAnn.safeAnn
      | none => false)

/-- `check_borrows_with_safety_context` (always `Ok` in the source),
parametrised by the hash-map iteration order `ord` used by the lifetime
inference pass. -/
def checkBorrowsWithSafetyContextOrd
    (ord : List (String × InferredLifetime) → List (String × InferredLifetime))
    (p : IrProgram) (cache : HeaderCache) (ctx : SafetyContext) : List String :=
  if ¬ ctx.file_default = SafetyMode.safeMode ∧
     ¬ ctx.function_overrides.any (fun o => o.2 = SafetyMode.safeMode) ∧
     ¬ hasAnySafeFunctions p cache then
    []
  else
    let e1 := p.functions.foldl
      (fun e f => if shouldCheckFunction ctx f.name then e ++ checkFunction f else e)
      []
    let e2 := p.functions.foldl
      (fun e f =>
        if shouldCheckFunction ctx f.name then
          e ++ inferAndValidateLifetimesOrd ord f
        else e)
      e1
    if hasSignatures cache then
      e2 ++ checkLifetimesWithAnns p cache ++ checkScopedLifetimes p cache
    else e2

/-- `check_borrows_with_safety_context` with the model's canonical
iteration order. -/
def checkBorrowsWithSafetyContext (p : IrProgram) (cache : HeaderCache)
    (ctx : SafetyContext) : List String :=
  checkBorrowsWithSafetyContextOrd (fun l => l) p cache ctx

/-! ## Toolkit lemmas about the map model -/

theorem lookupA_insertA {α : Type} (m : List (String × α)) (k k' : String)
    (v : α) :
    lookupA (insertA m k v) k' = if k' = k then some v else lookupA m k' := by
  induction m with
  | nil =>
    by_cases h : k' = k
    · subst h
      simp [insertA, lookupA]
    · have h2 : ¬ k = k' := fun hh => h hh.symm
      simp [insertA, lookupA, h, h2]
  | cons p rest ih =>
    by_cases hp : p.1 = k
    · by_cases hk : k' = k
      · subst hk
        simp [insertA, lookupA, hp]
      · have hk2 : ¬ k = k' := fun hh => hk hh.symm
        have hpk' : ¬ p.1 = k' := by
          rw [hp]
          exact hk2
        simp [insertA, lookupA, hp, hk, hk2, hpk']
    · by_cases hpk' : p.1 = k'
      · have hk : ¬ k' = k := fun hh => hp (hpk'.trans hh)
        simp [insertA, lookupA, hp, hpk', hk]
      · simp [insertA, lookupA, hp, hpk', ih]

@[simp]
theorem lookupA_insertA_self {α : Type} (m : List (String × α)) (k : String)
    (v : α) : lookupA (insertA m k v) k = some v := by
  simp [lookupA_insertA]

theorem lookupA_insertA_ne {α : Type} (m : List (String × α)) {k k' : String}
    (v : α) (h : ¬ k' = k) :
    lookupA (insertA m k v) k' = lookupA m k' := by
  simp [lookupA_insertA, h]

theorem keys_insertA {α : Type} (m : List (String × α)) (k : String) (v : α) :
    (insertA m k v).map Prod.fst = m.map Prod.fst ∨
      (insertA m k v).map Prod.fst = m.map Prod.fst ++ [k] := by
  induction m with
  | nil => simp [insertA]
  | cons p rest ih =>
    by_cases hp : p.1 = k
    · left
      simp [insertA, hp]
    · rcases ih with h | h <;> [left; right] <;> simp [insertA, hp, h]

theorem lookupA_eq_none_of_not_mem_keys {α : Type} {m : List (String × α)}
    {k : String} (h : k ∉ m.map Prod.fst) : lookupA m k = none := by
  induction m with
  | nil => rfl
  | cons p rest ih =>
    simp only [List.map_cons, List.mem_cons] at h
    push_neg at h
    have : ¬ p.1 = k := fun hh => h.1 hh.symm
    simp [lookupA, this, ih h.2]

theorem not_mem_keys_of_lookupA_eq_none {α : Type} {m : List (String × α)}
    {k : String} (h : lookupA m k = none) : k ∉ m.map Prod.fst := by
  induction m with
  | nil => simp
  | cons p rest ih =>
    by_cases hp : p.1 = k
    · simp [lookupA, hp] at h
    · simp only [lookupA, hp, if_false] at h
      simp only [List.map_cons, List.mem_cons]
      push_neg
      exact ⟨fun hh => hp hh.symm, ih h⟩

theorem nodup_keys_insertA {α : Type} {m : List (String × α)} {k : String}
    (v : α) (h : (m.map Prod.fst).Nodup) :
    ((insertA m k v).map Prod.fst).Nodup := by
  induction m with
  | nil => simp [insertA]
  | cons p rest ih =>
    simp only [List.map_cons, List.nodup_cons] at h
    by_cases hp : p.1 = k
    · simp only [insertA, hp, if_true, List.map_cons, List.nodup_cons]
      exact ⟨hp ▸ h.1, h.2⟩
    · simp only [insertA, hp, if_false, List.map_cons, List.nodup_cons]
      refine ⟨?_, ih h.2⟩
      rcases keys_insertA rest k v with hk | hk
      · rw [hk]
        exact h.1
      · rw [hk]
        intro hmem
        rcases List.mem_append.1 hmem with hm | hm
        · exact h.1 hm
        · simp only [List.mem_singleton] at hm
          exact hp hm

theorem mem_insertSet_self (s : List String) (x : String) :
    x ∈ insertSet s x := by
  by_cases h : x ∈ s <;> simp [insertSet, h]

theorem lookupA_filter_eq_none {α : Type} {m : List (String × α)}
    (p : String × α → Bool) {k : String} (h : lookupA m k = none) :
    lookupA (m.filter p) k = none := by
  apply lookupA_eq_none_of_not_mem_keys
  intro hmem
  apply not_mem_keys_of_lookupA_eq_none h
  simp only [List.mem_map] at hmem ⊢
  rcases hmem with ⟨q, hq, hqk⟩
  exact ⟨q, (List.mem_filter.1 hq).1, hqk⟩

/-! ## Tracker step lemmas -/

@[simp]
theorem getOwnership_markAsReference (t : OwnershipTracker) (v w : String)
    (b : Bool) : getOwnership (markAsReference t v b) w = getOwnership t w := by
  simp [getOwnership, markAsReference]

@[simp]
theorem getOwnership_addBorrow (t : OwnershipTracker) (a b w : String)
    (k : BorrowKind) : getOwnership (addBorrow t a b k) w = getOwnership t w := by
  cases k <;> simp [getOwnership, addBorrow]

@[simp]
theorem getBorrows_markAsReference (t : OwnershipTracker) (v w : String)
    (b : Bool) : getBorrows (markAsReference t v b) w = getBorrows t w := by
  simp [getBorrows, markAsReference]

theorem getBorrows_addBorrow_imm (t : OwnershipTracker) (a b : String) :
    getBorrows (addBorrow t a b .immutable) a =
      { immutable_count := (getBorrows t a).immutable_count + 1,
        has_mutable := (getBorrows t a).has_mutable,
        borrowers := insertSet (getBorrows t a).borrowers b } := by
  simp [getBorrows, addBorrow]

theorem getBorrows_addBorrow_mut (t : OwnershipTracker) (a b : String) :
    getBorrows (addBorrow t a b .mutable) a =
      { immutable_count := (getBorrows t a).immutable_count,
        has_mutable := true,
        borrowers := insertSet (getBorrows t a).borrowers b } := by
  simp [getBorrows, addBorrow]

/-- A successful or conflicting immutable borrow of an unmoved source with
no mutable borrow changes the tracker but appends no error. -/
theorem borrow_imm_step (t : OwnershipTracker) (e : List String) (x r : String)
    (hmov : ¬ getOwnership t x = some OwnershipState.moved)
    (hmut : (getBorrows t x).has_mutable = false) :
    processStatement (.borrow x r .immutable) t e =
      (markAsReference (addBorrow t x r .immutable) r false, e) := by
  by_cases hd : isInUncheckedBlock t
  · simp [processStatement, hd]
  · simp [processStatement, hd, hmov, hmut]

/-- Any number of consecutive immutable borrows of an unmoved source with
no mutable borrow appends zero errors. -/
theorem imm_borrows_no_errors (rs : List String) :
    ∀ (t : OwnershipTracker) (e : List String) (x : String),
    ¬ getOwnership t x = some OwnershipState.moved →
    (getBorrows t x).has_mutable = false →
    (processStmts (rs.map (fun q => IrStatement.borrow x q .immutable)) t e).2 = e := by
  induction rs with
  | nil =>
    intro t e x _ _
    simp [processStmts]
  | cons r rs ih =>
    intro t e x hmov hmut
    simp only [List.map_cons, processStmts]
    rw [borrow_imm_step t e x r hmov hmut]
    exact ih _ _ _ (by simp [hmov])
      (by simp [getBorrows_addBorrow_imm, hmut])

/-! ## Claim theorems -/

/-- A `Move` of a moved, non-reference source appends exactly the
"use after move" error. -/
theorem move_moved_errors (t : OwnershipTracker) (e : List String)
    (x y : String) (hdepth : t.uncheckedDepth = 0)
    (href : isReference t x = false)
    (hmov : getOwnership t x = some OwnershipState.moved) :
    (processStatement (.move x y) t e).2 = e ++ [useAfterMoveMsg x] := by
  simp only [processStatement, isInUncheckedBlock, hdepth]
  simp only [Nat.lt_irrefl, decide_False, Bool.false_eq_true, if_false, href,
    hmov, if_true]
  split <;> simp

/-- A `Move` of an owned, non-reference source to a regular destination
appends no error and transfers ownership. -/
theorem move_owned_step (t : OwnershipTracker) (e : List String)
    (x y : String) (hdepth : t.uncheckedDepth = 0)
    (href : isReference t x = false)
    (hown : getOwnership t x = some OwnershipState.owned)
    (hy : ¬ (y.startsWith "_temp_move_" ∨ y.startsWith "_moved_")) :
    processStatement (.move x y) t e =
      (setOwnership (setOwnership t x OwnershipState.moved) y
        OwnershipState.owned, e) := by
  have hmov : ¬ getOwnership t x = some OwnershipState.moved := by
    simp [hown]
  simp only [processStatement, isInUncheckedBlock, hdepth]
  simp only [Nat.lt_irrefl, decide_False, Bool.false_eq_true, if_false, href,
    hmov, hy, if_true, if_false]

/-- A `Move` of an owned, non-reference source appends no error (any
destination). -/
theorem move_owned_no_error (t : OwnershipTracker) (e : List String)
    (x y : String) (hdepth : t.uncheckedDepth = 0)
    (href : isReference t x = false)
    (hown : getOwnership t x = some OwnershipState.owned) :
    (processStatement (.move x y) t e).2 = e := by
  have hmov : ¬ getOwnership t x = some OwnershipState.moved := by
    simp [hown]
  simp only [processStatement, isInUncheckedBlock, hdepth]
  simp only [Nat.lt_irrefl, decide_False, Bool.false_eq_true, if_false, href,
    hmov, if_true]
  split <;> simp

/-- C1: in `check_function`'s statement processing, a `Move{from,to}`
whose (non-reference) source is `Moved` appends exactly one
"use after move" error for that statement; a `Move` whose source is
`Owned` appends zero errors, leaves the source `Moved` and the (regular,
distinct) destination `Owned`. -/
theorem move_statement_semantics
    (t : OwnershipTracker) (e : List String) (x y : String)
    (hdepth : t.uncheckedDepth = 0)
    (href : isReference t x = false)
    (hxy : ¬ x = y) :
    (getOwnership t x = some OwnershipState.moved →
      (processStatement (.move x y) t e).2 = e ++ [useAfterMoveMsg x]) ∧
    (getOwnership t x = some OwnershipState.owned →
      ¬ (y.startsWith "_temp_move_" ∨ y.startsWith "_moved_") →
      (processStatement (.move x y) t e).2 = e ∧
      getOwnership (processStatement (.move x y) t e).1 x =
        some OwnershipState.moved ∧
      getOwnership (processStatement (.move x y) t e).1 y =
        some OwnershipState.owned) := by
  constructor
  · intro hmov
    exact move_moved_errors t e x y hdepth href hmov
  · intro hown hy
    rw [move_owned_step t e x y hdepth href hown hy]
    refine ⟨rfl, ?_, ?_⟩
    · simp [getOwnership, setOwnership, lookupA_insertA, hxy]
    · simp [getOwnership, setOwnership, lookupA_insertA]

/-- Scenario A of the spec: two immutable borrows of one owned variable. -/
def scenarioA : IrFunction :=
  ⟨"test",
   [⟨0, [.borrow "x" "ref1" .immutable, .borrow "x" "ref2" .immutable]⟩],
   [], [("x", ⟨"x", .owned "int", .owned, none⟩)]⟩

/-- Scenario B of the spec: a mutable borrow followed by an immutable
borrow of the same owned variable. -/
def scenarioB : IrFunction :=
  ⟨"test",
   [⟨0, [.borrow "x" "r1" .mutable, .borrow "x" "r2" .immutable]⟩],
   [], [("x", ⟨"x", .owned "int", .owned, none⟩)]⟩

/-- C2: a mutable borrow while the source has a mutable borrow or any
immutable borrow appends an error, an immutable borrow while the source
has a mutable borrow appends an error, any sequence of only immutable
borrows of an unmoved source with no mutable borrow appends zero errors;
Scenario B produces exactly one error containing "already mutably
borrowed" and Scenario A produces zero errors. -/
theorem borrow_conflict_rules
    (t : OwnershipTracker) (e : List String) (x r : String) (rs : List String)
    (hdepth : t.uncheckedDepth = 0)
    (hmov : ¬ getOwnership t x = some OwnershipState.moved) :
    ((getBorrows t x).has_mutable = true ∨ 0 < (getBorrows t x).immutable_count →
      (processStatement (.borrow x r .mutable) t e).2 =
        e ++ [if 0 < (getBorrows t x).immutable_count then mutWhileImmMsg x
              else mutWhileMutMsg x]) ∧
    ((getBorrows t x).has_mutable = true →
      (processStatement (.borrow x r .immutable) t e).2 =
        e ++ [immWhileMutMsg x]) ∧
    ((getBorrows t x).has_mutable = false →
      (processStmts (rs.map (fun q => IrStatement.borrow x q .immutable)) t e).2
        = e) ∧
    (checkFunction scenarioB = [immWhileMutMsg "x"] ∧
      strContainsSub (immWhileMutMsg "x") "already mutably borrowed" = true) ∧
    checkFunction scenarioA = [] := by
  refine ⟨?_, ?_, ?_, by decide, by decide⟩
  · intro hconf
    simp only [processStatement, isInUncheckedBlock, hdepth]
    simp only [Nat.lt_irrefl, decide_False, Bool.false_eq_true, if_false, hmov,
      if_true]
    by_cases himm : 0 < (getBorrows t x).immutable_count
    · simp [himm]
    · rcases hconf with hm | hi
      · simp [himm, hm]
      · exact absurd hi himm
  · intro hm
    simp only [processStatement, isInUncheckedBlock, hdepth]
    simp only [Nat.lt_irrefl, decide_False, Bool.false_eq_true, if_false, hmov,
      if_true, hm]
  · intro hmut
    exact imm_borrows_no_errors rs t e x hmov hmut

/-- C10: a `Borrow` whose source is `Moved` is rejected without any state
change; any other `Borrow` — conflicting or not — is still recorded: the
destination joins the source's borrower set and the innermost scope
frame, the count for its kind is updated, and the destination is marked
as a reference. -/
theorem borrow_error_still_recorded
    (t : OwnershipTracker) (e : List String) (x r : String) (k : BorrowKind)
    (hdepth : t.uncheckedDepth = 0) :
    (getOwnership t x = some OwnershipState.moved →
      processStatement (.borrow x r k) t e = (t, e ++ [borrowMovedMsg x])) ∧
    (¬ getOwnership t x = some OwnershipState.moved →
      (r ∈ (getBorrows (processStatement (.borrow x r k) t e).1 x).borrowers ∧
       lookupA (processStatement (.borrow x r k) t e).1.reference_info r =
         some ⟨true, k = BorrowKind.mutable⟩ ∧
       (k = .immutable →
         (getBorrows (processStatement (.borrow x r k) t e).1 x).immutable_count
           = (getBorrows t x).immutable_count + 1) ∧
       (k = .mutable →
         (getBorrows (processStatement (.borrow x r k) t e).1 x).has_mutable
           = true) ∧
       (∀ fr rest, t.scope_stack = fr :: rest →
         ∃ fr' rest',
           (processStatement (.borrow x r k) t e).1.scope_stack = fr' :: rest' ∧
             r ∈ fr'.local_borrows))) := by
  constructor
  · intro hmov
    simp [processStatement, isInUncheckedBlock, hdepth, hmov]
  · intro hmov
    have hres : (processStatement (.borrow x r k) t e).1 =
        markAsReference (addBorrow t x r k) r (k = BorrowKind.mutable) := by
      simp only [processStatement, isInUncheckedBlock, hdepth]
      simp only [Nat.lt_irrefl, decide_False, Bool.false_eq_true, if_false,
        hmov, if_true]
    rw [hres]
    refine ⟨?_, ?_, ?_, ?_, ?_⟩
    · cases k
      · simp [getBorrows_addBorrow_imm, mem_insertSet_self]
      · simp [getBorrows_addBorrow_mut, mem_insertSet_self]
    · simp [markAsReference]
    · intro hk
      subst hk
      simp [getBorrows_addBorrow_imm]
    · intro hk
      subst hk
      simp [getBorrows_addBorrow_mut]
    · intro fr rest hstack
      refine ⟨{ fr with local_borrows := insertSet fr.local_borrows r }, rest,
        ?_, mem_insertSet_self _ _⟩
      cases k <;> simp [markAsReference, addBorrow, hstack]

/-- The scope round-trip program of Scenario E, over arbitrary names. -/
def scopeRoundTripFun (x r1 r2 : String) : IrFunction :=
  ⟨"test",
   [⟨0, [.enterScope, .borrow x r1 .mutable, .exitScope,
         .borrow x r2 .mutable]⟩],
   [], [(x, ⟨x, .owned "int", .owned, none⟩)]⟩

/-- C6: `EnterScope; Borrow(x,r1,Mutable); ExitScope; Borrow(x,r2,Mutable)`
produces zero errors from the ownership tracker; after the `ExitScope`
the scope's recorded borrower `r1` has been removed from `x`'s borrower
set and its `reference_info` entry erased. -/
theorem scope_roundtrip_zero_errors (x r1 r2 : String) :
    checkFunction (scopeRoundTripFun x r1 r2) = [] ∧
    (r1 ∉ (getBorrows (processStmts
        [.enterScope, .borrow x r1 .mutable, .exitScope]
        (initTracker (scopeRoundTripFun x r1 r2)) []).1 x).borrowers ∧
     lookupA (processStmts
        [.enterScope, .borrow x r1 .mutable, .exitScope]
        (initTracker (scopeRoundTripFun x r1 r2)) []).1.reference_info r1
       = none) := by
  constructor
  · simp [checkFunction, scopeRoundTripFun, initTracker, OwnershipTracker.new,
      setOwnership, goStmts, goStmtsF, processStatement, isInUncheckedBlock,
      getOwnership, getBorrows, lookupA, insertA, enterScopeT, exitScopeT,
      addBorrow, markAsReference, insertSet, removeSet, eraseA]
  · simp [processStmts, scopeRoundTripFun, initTracker, OwnershipTracker.new,
      setOwnership, processStatement, isInUncheckedBlock, getOwnership,
      getBorrows, lookupA, insertA, enterScopeT, exitScopeT, addBorrow,
      markAsReference, insertSet, removeSet, eraseA]

/-- A tracker whose only variable `x` is already moved. -/
def movedXTracker : OwnershipTracker :=
  ⟨[("x", .moved)], [], [], [⟨[]⟩], 0, [], 0⟩

/-- A tracker whose only variable `x` is owned and unborrowed. -/
def ownedXTracker : OwnershipTracker :=
  ⟨[("x", .owned)], [], [], [⟨[]⟩], 0, [], 0⟩

/-- A tracker whose owned variable `x` already has a mutable borrow. -/
def mutXTracker : OwnershipTracker :=
  ⟨[("x", .owned)], [("x", ⟨0, true, ["r0"]⟩)], [], [⟨[]⟩], 0, [], 0⟩

theorem move_statement_semantics_witness :
    (processStatement (.move "x" "y") movedXTracker []).2 =
      [useAfterMoveMsg "x"] ∧
    (processStatement (.move "x" "y") ownedXTracker []).2 = [] ∧
    getOwnership (processStatement (.move "x" "y") ownedXTracker []).1 "x" =
      some OwnershipState.moved ∧
    getOwnership (processStatement (.move "x" "y") ownedXTracker []).1 "y" =
      some OwnershipState.owned := by
  have h1 := move_statement_semantics movedXTracker [] "x" "y" rfl rfl
    (by decide)
  have h2 := move_statement_semantics ownedXTracker [] "x" "y" rfl rfl
    (by decide)
  have h2' := h2.2 rfl (by decide)
  exact ⟨h1.1 rfl, h2'.1, h2'.2.1, h2'.2.2⟩

theorem borrow_conflict_rules_witness :
    (processStatement (.borrow "x" "r" .mutable) mutXTracker []).2 =
      [mutWhileMutMsg "x"] ∧
    (processStatement (.borrow "x" "r" .immutable) mutXTracker []).2 =
      [immWhileMutMsg "x"] ∧
    (processStmts [.borrow "x" "a" .immutable, .borrow "x" "b" .immutable]
      ownedXTracker []).2 = [] := by
  have h1 := borrow_conflict_rules mutXTracker [] "x" "r" ["a", "b"] rfl
    (by decide)
  have h2 := borrow_conflict_rules ownedXTracker [] "x" "r" ["a", "b"] rfl
    (by decide)
  refine ⟨?_, h1.2.1 rfl, h2.2.2.1 rfl⟩
  have := h1.1 (Or.inl rfl)
  simpa using this

theorem borrow_error_still_recorded_witness :
    processStatement (.borrow "x" "r" .mutable) movedXTracker [] =
      (movedXTracker, [borrowMovedMsg "x"]) ∧
    "r" ∈ (getBorrows
      (processStatement (.borrow "x" "r" .mutable) mutXTracker []).1
      "x").borrowers ∧
    lookupA (processStatement (.borrow "x" "r" .mutable) mutXTracker
      []).1.reference_info "r" = some ⟨true, true⟩ ∧
    (getBorrows (processStatement (.borrow "x" "r" .mutable) mutXTracker
      []).1 "x").has_mutable = true := by
  have h1 := borrow_error_still_recorded movedXTracker [] "x" "r" .mutable rfl
  have h2 := borrow_error_still_recorded mutXTracker [] "x" "r" .mutable rfl
  have h2' := h2.2 (by decide)
  exact ⟨h1.1 rfl, h2'.1, h2'.2.1, h2'.2.2.2.1 rfl⟩

/-! ## Branch-merge lemmas -/

@[simp]
theorem cloneState_ownership (t : OwnershipTracker) :
    (cloneState t).ownership = t.ownership := rfl

@[simp]
theorem cloneState_reference_info (t : OwnershipTracker) :
    (cloneState t).reference_info = t.reference_info := rfl

@[simp]
theorem restoreState_uncheckedDepth (t : OwnershipTracker) (s : TrackerState) :
    (restoreState t s).uncheckedDepth = t.uncheckedDepth := rfl

@[simp]
theorem restoreState_reference_info (t : OwnershipTracker) (s : TrackerState) :
    (restoreState t s).reference_info = s.reference_info := rfl

theorem lookupA_mergeOwnershipStep_ne (elseO m : List (String × OwnershipState))
    (p : String × OwnershipState) {x : String} (h : ¬ p.1 = x) :
    lookupA (mergeOwnershipStep elseO m p) x = lookupA m x := by
  unfold mergeOwnershipStep
  cases lookupA elseO p.1 with
  | none => rfl
  | some elseOwn =>
    by_cases h1 : p.2 = OwnershipState.moved ∧ elseOwn = OwnershipState.moved
    · simp [h1, lookupA_insertA_ne _ _ (fun hh => h hh.symm)]
    · by_cases h2 : p.2 = OwnershipState.moved ∨ elseOwn = OwnershipState.moved
      · simp [h1, h2, lookupA_insertA_ne _ _ (fun hh => h hh.symm)]
      · simp [h1, h2, lookupA_insertA_ne _ _ (fun hh => h hh.symm)]

theorem lookupA_foldl_mergeStep_of_forall_ne
    (l : List (String × OwnershipState)) (elseO : List (String × OwnershipState))
    (x : String) :
    ∀ m, (∀ q ∈ l, ¬ q.1 = x) →
      lookupA (l.foldl (mergeOwnershipStep elseO) m) x = lookupA m x := by
  induction l with
  | nil => intro m _; rfl
  | cons p rest ih =>
    intro m hq
    simp only [List.foldl_cons]
    rw [ih _ (fun q hmem => hq q (List.mem_cons_of_mem _ hmem))]
    exact lookupA_mergeOwnershipStep_ne elseO m p (hq p (List.mem_cons_self _ _))

/-- `merge_states`' ownership result at a key present in both branch
states (then-branch keys unique): moved iff moved in both, owned if moved
in exactly one, otherwise the then-branch state. -/
theorem lookupA_foldl_mergeStep
    (thenO : List (String × OwnershipState)) :
    ∀ (elseO m : List (String × OwnershipState)) (x : String)
      (a b : OwnershipState),
    (thenO.map Prod.fst).Nodup →
    lookupA thenO x = some a → lookupA elseO x = some b →
    lookupA (thenO.foldl (mergeOwnershipStep elseO) m) x =
      some (if a = OwnershipState.moved ∧ b = OwnershipState.moved then
              OwnershipState.moved
            else if a = OwnershipState.moved ∨ b = OwnershipState.moved then
              OwnershipState.owned
            else a) := by
  induction thenO with
  | nil =>
    intro elseO m x a b _ hx _
    simp [lookupA] at hx
  | cons p rest ih =>
    intro elseO m x a b hnd hx he
    simp only [List.map_cons, List.nodup_cons] at hnd
    by_cases hp : p.1 = x
    · have hpa : p.2 = a := by
        simp [lookupA, hp] at hx
        exact hx
      have hrest : ∀ q ∈ rest, ¬ q.1 = x := by
        intro q hq hqx
        exact hnd.1 (by
          rw [hp, ← hqx]
          exact List.mem_map_of_mem Prod.fst hq)
      simp only [List.foldl_cons]
      rw [lookupA_foldl_mergeStep_of_forall_ne rest elseO x _ hrest]
      unfold mergeOwnershipStep
      rw [hp, he, hpa]
      by_cases h1 : a = OwnershipState.moved ∧ b = OwnershipState.moved
      · simp [h1]
      · by_cases h2 : a = OwnershipState.moved ∨ b = OwnershipState.moved
        · simp [h1, h2]
        · simp [h1, h2]
    · have hx' : lookupA rest x = some a := by
        simpa [lookupA, hp] using hx
      simp only [List.foldl_cons]
      exact ih elseO _ x a b hnd.2 hx' he

theorem isReference_false_of_lookup_none (t : OwnershipTracker) {x : String}
    (h : lookupA t.reference_info x = none) : isReference t x = false := by
  simp [isReference, h]

/-- Projection facts for `mergeStates`. -/
theorem mergeStates_ownership (t : OwnershipTracker) (thenS elseS : TrackerState) :
    (mergeStates t thenS elseS).ownership =
      thenS.ownership.foldl (mergeOwnershipStep elseS.ownership) t.ownership := rfl

theorem mergeStates_uncheckedDepth (t : OwnershipTracker)
    (thenS elseS : TrackerState) :
    (mergeStates t thenS elseS).uncheckedDepth = t.uncheckedDepth := rfl

theorem mergeStates_reference_info_lookup_none (t : OwnershipTracker)
    (thenS elseS : TrackerState) {x : String}
    (h : lookupA t.reference_info x = none) :
    lookupA (mergeStates t thenS elseS).reference_info x = none := by
  exact lookupA_filter_eq_none _ h

/-- C4: in an `If` with `x` present in both branch-final states (then
keys unique), `x` is `Moved` after the conditional iff moved in both
branch outcomes; moved in exactly one outcome — only in `then`, only in
`else`, or only in `then` with no `else` branch — leaves `x` `Owned`,
and in each of those one-sided cases a subsequent `Move` of `x` appends
zero errors. -/
theorem branch_merge_conservatism
    (t : OwnershipTracker) (e : List String) (x w : String)
    (bThen bElse : List IrStatement)
    (hdepth : t.uncheckedDepth = 0)
    (hnd : ((processStmts bThen t e).1.ownership.map Prod.fst).Nodup) :
    (lookupA (processStmts bThen t e).1.ownership x =
       some OwnershipState.moved →
     lookupA (processStmts bElse
         (restoreState (processStmts bThen t e).1 (cloneState t))
         (processStmts bThen t e).2).1.ownership x =
       some OwnershipState.moved →
     getOwnership (processStatement (.ifStmt bThen (some bElse)) t e).1 x =
       some OwnershipState.moved) ∧
    (lookupA (processStmts bThen t e).1.ownership x =
       some OwnershipState.moved →
     lookupA (processStmts bElse
         (restoreState (processStmts bThen t e).1 (cloneState t))
         (processStmts bThen t e).2).1.ownership x =
       some OwnershipState.owned →
     (processStmts bElse
         (restoreState (processStmts bThen t e).1 (cloneState t))
         (processStmts bThen t e).2).1.uncheckedDepth = 0 →
     lookupA (processStmts bElse
         (restoreState (processStmts bThen t e).1 (cloneState t))
         (processStmts bThen t e).2).1.reference_info x = none →
     getOwnership (processStatement (.ifStmt bThen (some bElse)) t e).1 x =
       some OwnershipState.owned ∧
     (processStatement (.move x w)
        (processStatement (.ifStmt bThen (some bElse)) t e).1
        (processStatement (.ifStmt bThen (some bElse)) t e).2).2 =
       (processStatement (.ifStmt bThen (some bElse)) t e).2) ∧
    (lookupA (processStmts bThen t e).1.ownership x =
       some OwnershipState.owned →
     lookupA (processStmts bElse
         (restoreState (processStmts bThen t e).1 (cloneState t))
         (processStmts bThen t e).2).1.ownership x =
       some OwnershipState.moved →
     (processStmts bElse
         (restoreState (processStmts bThen t e).1 (cloneState t))
         (processStmts bThen t e).2).1.uncheckedDepth = 0 →
     lookupA (processStmts bElse
         (restoreState (processStmts bThen t e).1 (cloneState t))
         (processStmts bThen t e).2).1.reference_info x = none →
     getOwnership (processStatement (.ifStmt bThen (some bElse)) t e).1 x =
       some OwnershipState.owned ∧
     (processStatement (.move x w)
        (processStatement (.ifStmt bThen (some bElse)) t e).1
        (processStatement (.ifStmt bThen (some bElse)) t e).2).2 =
       (processStatement (.ifStmt bThen (some bElse)) t e).2) ∧
    (lookupA (processStmts bThen t e).1.ownership x =
       some OwnershipState.moved →
     getOwnership t x = some OwnershipState.owned →
     lookupA t.reference_info x = none →
     (processStmts bThen t e).1.uncheckedDepth = 0 →
     getOwnership (processStatement (.ifStmt bThen none) t e).1 x =
       some OwnershipState.owned ∧
     (processStatement (.move x w)
        (processStatement (.ifStmt bThen none) t e).1
        (processStatement (.ifStmt bThen none) t e).2).2 =
       (processStatement (.ifStmt bThen none) t e).2) := by
  have hblock : ¬ isInUncheckedBlock t = true := by
    simp [isInUncheckedBlock, hdepth]
  refine ⟨?_, ?_, ?_, ?_⟩
  · intro hthen helse
    simp only [processStatement, hblock, Bool.false_eq_true, if_false,
      getOwnership, mergeStates_ownership, cloneState_ownership]
    rw [lookupA_foldl_mergeStep _ _ _ x _ _ hnd hthen helse]
    simp
  · intro hthen helse hdE hrefE
    have hmerged : getOwnership
        (processStatement (.ifStmt bThen (some bElse)) t e).1 x =
        some OwnershipState.owned := by
      simp only [processStatement, hblock, Bool.false_eq_true, if_false,
        getOwnership, mergeStates_ownership, cloneState_ownership]
      rw [lookupA_foldl_mergeStep _ _ _ x _ _ hnd hthen helse]
      simp
    refine ⟨hmerged, ?_⟩
    apply move_owned_no_error
    · simp only [processStatement, hblock, Bool.false_eq_true, if_false,
        mergeStates_uncheckedDepth]
      exact hdE
    · apply isReference_false_of_lookup_none
      simp only [processStatement, hblock, Bool.false_eq_true, if_false]
      exact mergeStates_reference_info_lookup_none _ _ _ hrefE
    · exact hmerged
  · intro hthen helse hdE hrefE
    have hmerged : getOwnership
        (processStatement (.ifStmt bThen (some bElse)) t e).1 x =
        some OwnershipState.owned := by
      simp only [processStatement, hblock, Bool.false_eq_true, if_false,
        getOwnership, mergeStates_ownership, cloneState_ownership]
      rw [lookupA_foldl_mergeStep _ _ _ x _ _ hnd hthen helse]
      simp
    refine ⟨hmerged, ?_⟩
    apply move_owned_no_error
    · simp only [processStatement, hblock, Bool.false_eq_true, if_false,
        mergeStates_uncheckedDepth]
      exact hdE
    · apply isReference_false_of_lookup_none
      simp only [processStatement, hblock, Bool.false_eq_true, if_false]
      exact mergeStates_reference_info_lookup_none _ _ _ hrefE
    · exact hmerged
  · intro hthen hown hrefnone hd2
    have hmerged : getOwnership
        (processStatement (.ifStmt bThen none) t e).1 x =
        some OwnershipState.owned := by
      simp only [processStatement, hblock, Bool.false_eq_true, if_false,
        getOwnership, mergeStates_ownership, cloneState_ownership]
      rw [lookupA_foldl_mergeStep _ _ _ x _ _ hnd hthen (by exact hown)]
      simp
    refine ⟨hmerged, ?_⟩
    apply move_owned_no_error
    · simp only [processStatement, hblock, Bool.false_eq_true, if_false,
        mergeStates_uncheckedDepth, restoreState_uncheckedDepth]
      exact hd2
    · apply isReference_false_of_lookup_none
      simp only [processStatement, hblock, Bool.false_eq_true, if_false]
      apply mergeStates_reference_info_lookup_none
      simpa using hrefnone
    · exact hmerged

theorem branch_merge_conservatism_witness :
    (getOwnership (processStatement
      (.ifStmt [.move "x" "y"] (some [.move "x" "z"])) ownedXTracker []).1 "x"
      = some OwnershipState.moved) ∧
    (getOwnership (processStatement
      (.ifStmt [.move "x" "y"] (some [])) ownedXTracker []).1 "x"
      = some OwnershipState.owned ∧
    (processStatement (.move "x" "w")
       (processStatement (.ifStmt [.move "x" "y"] (some []))
         ownedXTracker []).1
       (processStatement (.ifStmt [.move "x" "y"] (some []))
         ownedXTracker []).2).2
      = (processStatement (.ifStmt [.move "x" "y"] (some []))
          ownedXTracker []).2) ∧
    (getOwnership (processStatement
      (.ifStmt [] (some [.move "x" "z"])) ownedXTracker []).1 "x"
      = some OwnershipState.owned ∧
    (processStatement (.move "x" "w")
       (processStatement (.ifStmt [] (some [.move "x" "z"]))
         ownedXTracker []).1
       (processStatement (.ifStmt [] (some [.move "x" "z"]))
         ownedXTracker []).2).2
      = (processStatement (.ifStmt [] (some [.move "x" "z"]))
          ownedXTracker []).2) ∧
    (getOwnership (processStatement
      (.ifStmt [.move "x" "y"] none) ownedXTracker []).1 "x"
      = some OwnershipState.owned ∧
    (processStatement (.move "x" "w")
       (processStatement (.ifStmt [.move "x" "y"] none) ownedXTracker []).1
       (processStatement (.ifStmt [.move "x" "y"] none) ownedXTracker []).2).2
      = (processStatement (.ifStmt [.move "x" "y"] none) ownedXTracker []).2) := by
  have hboth := branch_merge_conservatism ownedXTracker [] "x" "w"
    [.move "x" "y"] [.move "x" "z"] rfl (by decide)
  have hthenOnly := branch_merge_conservatism ownedXTracker [] "x" "w"
    [.move "x" "y"] [] rfl (by decide)
  have helseOnly := branch_merge_conservatism ownedXTracker [] "x" "w"
    [] [.move "x" "z"] rfl (by decide)
  exact ⟨hboth.1 (by decide) (by decide),
    hthenOnly.2.1 (by decide) (by decide) (by decide) (by decide),
    helseOnly.2.2.1 (by decide) (by decide) (by decide) (by decide),
    hboth.2.2.2 (by decide) (by decide) (by decide) (by decide)⟩

/-! ## Loop doubling lemmas -/

theorem clearLoopLocals_nil_ownership (t : OwnershipTracker) :
    (clearLoopLocals t []).ownership = t.ownership := rfl

theorem clearLoopLocals_nil_reference_info (t : OwnershipTracker) :
    (clearLoopLocals t []).reference_info = t.reference_info := rfl

theorem clearLoopLocals_uncheckedDepth (t : OwnershipTracker)
    (l : List String) : (clearLoopLocals t l).uncheckedDepth =
      t.uncheckedDepth := rfl

theorem isReference_eq_of_ref_eq {t t' : OwnershipTracker} (v : String)
    (h : t'.reference_info = t.reference_info) :
    isReference t' v = isReference t v := by
  simp [isReference, h]

/-- C5: from any tracker state in which `x` is `Owned` and not a
reference (outside unsafe blocks), the bracketed loop body
`EnterLoop; Move(x,y); ExitLoop` processed by `check_function`'s
statement walk appends first the loop-doubling error — whose text names
the first and second iteration — and then the ordinary use-after-move
error raised when the move is re-applied in the simulated second
iteration. -/
theorem loop_second_iteration_error
    (t : OwnershipTracker) (e : List String) (x y : String)
    (hdepth : t.uncheckedDepth = 0)
    (href : isReference t x = false)
    (hx : getOwnership t x = some OwnershipState.owned)
    (hxy : ¬ x = y)
    (hy : ¬ (y.startsWith "_temp_move_" ∨ y.startsWith "_moved_")) :
    (goStmts [.enterLoop, .move x y, .exitLoop] t e).2 =
      e ++ [loopUseAfterMoveMsg x, useAfterMoveMsg x] := by
  have hstep := move_owned_step (enterLoopT t) e x y
    (by simpa [enterLoopT] using hdepth)
    (by rw [isReference_eq_of_ref_eq x rfl]; exact href)
    (by simpa [getOwnership, enterLoopT] using hx)
    hy
  have hfp : loopFirstPass [IrStatement.move x y] (enterLoopT t) e =
      ([], setOwnership (setOwnership (enterLoopT t) x OwnershipState.moved) y
        OwnershipState.owned, e) := by
    rw [show loopFirstPass [IrStatement.move x y] (enterLoopT t) e =
      ([], (processStatement (.move x y) (enterLoopT t) e).1,
       (processStatement (.move x y) (enterLoopT t) e).2) from rfl, hstep]
  have key : (goStmts [.enterLoop, .move x y, .exitLoop] t e).2 =
      (loopSecondPass [IrStatement.move x y]
        (loopFirstPass [IrStatement.move x y] (enterLoopT t) e).2.1.ownership
        (clearLoopLocals (loopFirstPass [IrStatement.move x y] (enterLoopT t) e).2.1
          (loopFirstPass [IrStatement.move x y] (enterLoopT t) e).1)
        (loopFirstPass [IrStatement.move x y] (enterLoopT t) e).2.2).2 := rfl
  rw [key, hfp]
  have hsnap : lookupA (setOwnership (setOwnership (enterLoopT t) x
      OwnershipState.moved) y OwnershipState.owned).ownership x =
      some OwnershipState.moved := by
    simp [setOwnership, lookupA_insertA, hxy]
  have hsp : (loopSecondPass [IrStatement.move x y]
      (setOwnership (setOwnership (enterLoopT t) x OwnershipState.moved) y
        OwnershipState.owned).ownership
      (clearLoopLocals (setOwnership (setOwnership (enterLoopT t) x
        OwnershipState.moved) y OwnershipState.owned) []) e).2 =
      (processStatement (.move x y)
        (clearLoopLocals (setOwnership (setOwnership (enterLoopT t) x
          OwnershipState.moved) y OwnershipState.owned) [])
        (e ++ [loopUseAfterMoveMsg x])).2 := by
    rw [show (loopSecondPass [IrStatement.move x y]
      (setOwnership (setOwnership (enterLoopT t) x OwnershipState.moved) y
        OwnershipState.owned).ownership
      (clearLoopLocals (setOwnership (setOwnership (enterLoopT t) x
        OwnershipState.moved) y OwnershipState.owned) []) e) =
      (processStatement (.move x y)
        (clearLoopLocals (setOwnership (setOwnership (enterLoopT t) x
          OwnershipState.moved) y OwnershipState.owned) [])
        (checkStatementForLoopErrors (.move x y)
          (setOwnership (setOwnership (enterLoopT t) x OwnershipState.moved) y
            OwnershipState.owned).ownership e)) from rfl]
    rw [show checkStatementForLoopErrors (.move x y)
      (setOwnership (setOwnership (enterLoopT t) x OwnershipState.moved) y
        OwnershipState.owned).ownership e =
      if lookupA (setOwnership (setOwnership (enterLoopT t) x
        OwnershipState.moved) y OwnershipState.owned).ownership x =
          some OwnershipState.moved
      then e ++ [loopUseAfterMoveMsg x] else e from rfl, if_pos hsnap]
  rw [hsp]
  rw [move_moved_errors _ _ x y ?hd ?hr ?hm]
  · simp
  case hd => exact hdepth
  case hr =>
    rw [isReference_eq_of_ref_eq x rfl]
    exact href
  case hm =>
    show lookupA (clearLoopLocals _ []).ownership x = _
    rw [clearLoopLocals_nil_ownership]
    exact hsnap

theorem loop_second_iteration_error_witness :
    (goStmts [.enterLoop, .move "x" "y", .exitLoop] ownedXTracker []).2 =
      [loopUseAfterMoveMsg "x", useAfterMoveMsg "x"] := by
  have h := loop_second_iteration_error ownedXTracker [] "x" "y" rfl rfl rfl
    (by decide) (by decide)
  simpa using h

/-! ## Safety-gate suppression (claim C3) -/

/-- A function resolved `Unsafe` that returns a reference-typed local. -/
def unsafeFnF : IrFunction :=
  ⟨"f", [⟨0, [.ret (some "r")]⟩], [],
   [("r", ⟨"r", .reference "int", .borrowed .immutable, none⟩)]⟩

/-- A trivially clean function resolved `Safe`. -/
def safeFnG : IrFunction := ⟨"g", [⟨0, []⟩], [], []⟩

def progC3 : IrProgram := ⟨[safeFnG, unsafeFnF]⟩

/-- A non-empty signature store (for an unrelated function `h`). -/
def cacheC3 : HeaderCache := ⟨[("h", ⟨"h", none, [], [], none⟩)]⟩

def ctxC3 : SafetyContext :=
  ⟨.defaultMode, [("g", .safeMode), ("f", .uncheckedMode)], []⟩

/-- C3 counterexample: `f` is resolved Unsafe by the gate, yet
`check_borrows_with_safety_context` reports an error about `f`'s local
`r` — the annotated lifetime checker runs over every function whenever
the signature store is non-empty.  Dropping `f` from the program removes
the error, so it is attributable to `f`. -/
theorem unsafe_function_not_fully_suppressed_cex :
    shouldCheckFunction ctxC3 "f" = false ∧
    checkBorrowsWithSafetyContext progC3 cacheC3 ctxC3 =
      [returningLocalRefMsg "r"] ∧
    checkBorrowsWithSafetyContext ⟨[safeFnG]⟩ cacheC3 ctxC3 = [] := by
  decide

/-- C3 (amended): when the signature store is empty — so the annotated
lifetime checker and the scoped lifetime tracker do not run — a function
the Safety Gate resolves as Unsafe contributes no errors at all: the
pipeline result is the same as for the program with that function
removed. -/
theorem unsafe_function_suppressed_without_signatures
    (fs1 fs2 : List IrFunction) (f : IrFunction) (cache : HeaderCache)
    (ctx : SafetyContext)
    (hsig : cache.signatures = [])
    (hf : shouldCheckFunction ctx f.name = false) :
    checkBorrowsWithSafetyContext ⟨fs1 ++ f :: fs2⟩ cache ctx =
      checkBorrowsWithSafetyContext ⟨fs1 ++ fs2⟩ cache ctx := by
  have hnone1 : hasAnySafeFunctions ⟨fs1 ++ f :: fs2⟩ cache = false := by
    simp [hasAnySafeFunctions, getSignature, hsig, lookupA]
  have hnone2 : hasAnySafeFunctions ⟨fs1 ++ fs2⟩ cache = false := by
    simp [hasAnySafeFunctions, getSignature, hsig, lookupA]
  have hns : hasSignatures cache = false := by
    simp [hasSignatures, hsig]
  simp only [checkBorrowsWithSafetyContext, checkBorrowsWithSafetyContextOrd,
    hnone1, hnone2, hns, Bool.false_eq_true, not_false_eq_true, and_true,
    if_false]
  by_cases hcond : ¬ ctx.file_default = SafetyMode.safeMode ∧
      ¬ ctx.function_overrides.any
        (fun o => o.2 = SafetyMode.safeMode) = true
  · simp [hcond]
  · simp only [hcond, if_false]
    rw [List.foldl_append, List.foldl_append, List.foldl_cons]
    rw [if_neg (by simp [hf])]
    rw [List.foldl_append, List.foldl_append, List.foldl_cons]
    rw [if_neg (by simp [hf])]

theorem unsafe_function_suppressed_without_signatures_witness :
    checkBorrowsWithSafetyContext ⟨[safeFnG, unsafeFnF]⟩ ⟨[]⟩ ctxC3 =
      checkBorrowsWithSafetyContext ⟨[safeFnG]⟩ ⟨[]⟩ ctxC3 := by
  exact unsafe_function_suppressed_without_signatures [safeFnG] [] unsafeFnF
    ⟨[]⟩ ctxC3 rfl (by decide)

/-! ## Lifetime-inference conflict loop (claim C8) -/

theorem length_filterMap_ite {α β : Type} (l : List α) (p : α → Prop)
    [DecidablePred p] (g : α → β) :
    (l.filterMap (fun a => if p a then some (g a) else none)).length =
      (l.filter (fun a => p a)).length := by
  induction l with
  | nil => rfl
  | cons a rest ih =>
    by_cases h : p a <;> simp [h, ih]

/-- C8: in the validation pass, for a `Borrow{from,to,Mutable}` the
conflict loop appends exactly one error per other tracked variable whose
dependency set contains the borrowed source and whose inferred interval
overlaps the destination's — one per qualifying map entry, with no
condition on the other borrow's kind — and the statement's validation
errors are the liveness check followed by exactly this list. -/
theorem mutable_borrow_conflict_errors
    (inf : LifetimeInferencer) (from_ to_ other : String) :
    ((mutableBorrowConflicts inf inf.lifetimes from_ to_).length =
      (inf.lifetimes.filter (fun p =>
        ¬ p.1 = to_ ∧ from_ ∈ p.2.dependencies ∧
          lifetimesOverlap inf to_ p.1)).length) ∧
    (∀ olt, (other, olt) ∈ inf.lifetimes → ¬ other = to_ →
      from_ ∈ olt.dependencies → lifetimesOverlap inf to_ other = true →
      conflictingBorrowMsg to_ from_ other ∈
        mutableBorrowConflicts inf inf.lifetimes from_ to_) ∧
    (∀ (f : IrFunction) (idx : Nat)
       (ord : List (String × InferredLifetime) → List (String × InferredLifetime)),
      statementValidationErrors ord f inf idx (.borrow from_ to_ .mutable) =
        (if (lookupA inf.lifetimes from_).isSome ∧ ¬ isAliveAt inf from_ idx
         then [borrowNotAliveMsg from_] else []) ++
        mutableBorrowConflicts inf (ord inf.lifetimes) from_ to_) := by
  refine ⟨?_, ?_, fun f idx ord => rfl⟩
  · exact length_filterMap_ite inf.lifetimes
      (fun p => ¬ p.1 = to_ ∧ from_ ∈ p.2.dependencies ∧
        lifetimesOverlap inf to_ p.1)
      (fun p => conflictingBorrowMsg to_ from_ p.1)
  · intro olt hmem hne hdep hov
    apply List.mem_filterMap.2
    refine ⟨(other, olt), hmem, ?_⟩
    rw [if_pos ⟨hne, hdep, hov⟩]

/-- An inferencer state with three tracked borrows of `x` whose intervals
all overlap the mutable borrow destination `r3`. -/
def infC8 : LifetimeInferencer :=
  ⟨[("r1", ⟨"'a", 0, 3, ["x"]⟩), ("r2", ⟨"'b", 1, 3, ["x"]⟩),
    ("r3", ⟨"'c", 2, 2, ["x"]⟩)], [], [], 3⟩

theorem mutable_borrow_conflict_errors_witness :
    conflictingBorrowMsg "r3" "x" "r1" ∈
      mutableBorrowConflicts infC8 infC8.lifetimes "x" "r3" ∧
    (mutableBorrowConflicts infC8 infC8.lifetimes "x" "r3").length = 2 := by
  have h := mutable_borrow_conflict_errors infC8 "x" "r3" "r1"
  constructor
  · exact h.2.1 ⟨"'a", 0, 3, ["x"]⟩ (by decide) (by decide) (by decide)
      (by decide)
  · rw [h.1]
    decide

/-! ## Order stability of the pipeline (claim C9) -/

/-- One function with a mutable borrow conflicting with two earlier
immutable borrows that stay alive past it. -/
def mutConflictFn : IrFunction :=
  ⟨"m", [⟨0, [.borrow "x" "r1" .immutable, .borrow "x" "r2" .immutable,
              .borrow "x" "r3" .mutable,
              .callExpr "p" ["r1", "r2"] none]⟩],
   [], [("x", ⟨"x", .owned "int", .owned, none⟩)]⟩

def progC9 : IrProgram := ⟨[mutConflictFn]⟩

def ctxAllSafe : SafetyContext := ⟨.safeMode, [], []⟩

/-- C9 counterexample: two iteration orders of the freshly built
`lifetimes` hash map — the identity and its reversal, both permutations
of the map — make the same analysis of the same program emit its two
conflict errors in different orders, so the violation list is not
order-stable across runs. -/
theorem analysis_order_instability_cex :
    ((inferFunctionLifetimes mutConflictFn).lifetimes.reverse).Perm
      (inferFunctionLifetimes mutConflictFn).lifetimes ∧
    ¬ checkBorrowsWithSafetyContextOrd (fun l => l.reverse) progC9 ⟨[]⟩
        ctxAllSafe =
      checkBorrowsWithSafetyContextOrd (fun l => l) progC9 ⟨[]⟩ ctxAllSafe := by
  exact ⟨List.reverse_perm _, by decide⟩

theorem perm_of_list_eq {α : Type} {l₁ l₂ : List α} (h : l₁ = l₂) :
    l₁.Perm l₂ := h ▸ List.Perm.refl _

theorem statementValidationErrors_perm
    (ord₁ ord₂ : List (String × InferredLifetime) → List (String × InferredLifetime))
    (h₁ : ∀ l, (ord₁ l).Perm l) (h₂ : ∀ l, (ord₂ l).Perm l)
    (f : IrFunction) (inf : LifetimeInferencer) (idx : Nat)
    (s : IrStatement) :
    (statementValidationErrors ord₁ f inf idx s).Perm
      (statementValidationErrors ord₂ f inf idx s) := by
  cases s with
  | borrow from_ to_ kind =>
    cases kind with
    | immutable => exact List.Perm.refl _
    | mutable =>
      apply List.Perm.append_left
      exact List.Perm.filterMap _ ((h₁ inf.lifetimes).trans
        (h₂ inf.lifetimes).symm)
  | ret value =>
    cases value with
    | none => exact perm_of_list_eq (by rfl)
    | some val => exact perm_of_list_eq (by rfl)
  | _ => exact perm_of_list_eq (by rfl)

theorem inferAndValidate_foldl_perm
    (ord₁ ord₂ : List (String × InferredLifetime) → List (String × InferredLifetime))
    (h₁ : ∀ l, (ord₁ l).Perm l) (h₂ : ∀ l, (ord₂ l).Perm l)
    (f : IrFunction) (inf : LifetimeInferencer) (l : List IrStatement) :
    ∀ (acc₁ acc₂ : List String) (i : Nat), acc₁.Perm acc₂ →
    ((l.foldl (fun (acc : List String × Nat) s =>
        (acc.1 ++ statementValidationErrors ord₁ f inf acc.2 s, acc.2 + 1))
      (acc₁, i)).1).Perm
    ((l.foldl (fun (acc : List String × Nat) s =>
        (acc.1 ++ statementValidationErrors ord₂ f inf acc.2 s, acc.2 + 1))
      (acc₂, i)).1) := by
  induction l with
  | nil => intro acc₁ acc₂ i h; exact h
  | cons s rest ih =>
    intro acc₁ acc₂ i h
    simp only [List.foldl_cons]
    exact ih _ _ _ (h.append
      (statementValidationErrors_perm ord₁ ord₂ h₁ h₂ f inf i s))

theorem inferAndValidateLifetimesOrd_perm
    (ord₁ ord₂ : List (String × InferredLifetime) → List (String × InferredLifetime))
    (h₁ : ∀ l, (ord₁ l).Perm l) (h₂ : ∀ l, (ord₂ l).Perm l)
    (f : IrFunction) :
    (inferAndValidateLifetimesOrd ord₁ f).Perm
      (inferAndValidateLifetimesOrd ord₂ f) := by
  exact inferAndValidate_foldl_perm ord₁ ord₂ h₁ h₂ f
    (inferFunctionLifetimes f) (allStatements f) [] [] 0 (List.Perm.refl _)

theorem inference_pass_foldl_perm
    (ord₁ ord₂ : List (String × InferredLifetime) → List (String × InferredLifetime))
    (h₁ : ∀ l, (ord₁ l).Perm l) (h₂ : ∀ l, (ord₂ l).Perm l)
    (ctx : SafetyContext) (fs : List IrFunction) :
    ∀ (e₁ e₂ : List String), e₁.Perm e₂ →
    (fs.foldl (fun e f =>
        if shouldCheckFunction ctx f.name then
          e ++ inferAndValidateLifetimesOrd ord₁ f
        else e) e₁).Perm
    (fs.foldl (fun e f =>
        if shouldCheckFunction ctx f.name then
          e ++ inferAndValidateLifetimesOrd ord₂ f
        else e) e₂) := by
  induction fs with
  | nil => intro e₁ e₂ h; exact h
  | cons f rest ih =>
    intro e₁ e₂ h
    simp only [List.foldl_cons]
    by_cases hc : shouldCheckFunction ctx f.name = true
    · simp only [hc, if_true]
      exact ih _ _ (h.append
        (inferAndValidateLifetimesOrd_perm ord₁ ord₂ h₁ h₂ f))
    · simp only [hc, if_false]
      exact ih _ _ h

/-- C9 (amended): for any two hash-map iteration orders (any two
functions producing permutations of the freshly built `lifetimes` map),
analyzing the same Program with the same signature store and safety
context yields violation lists that are permutations of each other: the
multiset of violations is run-independent, but the relative order of the
conflict errors emitted for one mutable borrow follows the unspecified
hash-map iteration order. -/
theorem analysis_output_perm_stable
    (p : IrProgram) (cache : HeaderCache) (ctx : SafetyContext)
    (ord₁ ord₂ : List (String × InferredLifetime) → List (String × InferredLifetime))
    (h₁ : ∀ l, (ord₁ l).Perm l) (h₂ : ∀ l, (ord₂ l).Perm l) :
    (checkBorrowsWithSafetyContextOrd ord₁ p cache ctx).Perm
      (checkBorrowsWithSafetyContextOrd ord₂ p cache ctx) := by
  unfold checkBorrowsWithSafetyContextOrd
  dsimp only
  split
  · exact List.Perm.refl _
  · have hmain := inference_pass_foldl_perm ord₁ ord₂ h₁ h₂ ctx p.functions
      (p.functions.foldl (fun e f =>
        if shouldCheckFunction ctx f.name then e ++ checkFunction f else e) [])
      (p.functions.foldl (fun e f =>
        if shouldCheckFunction ctx f.name then e ++ checkFunction f else e) [])
      (List.Perm.refl _)
    split
    · exact (hmain.append_right _).append_right _
    · exact hmain

theorem analysis_output_perm_stable_witness :
    (checkBorrowsWithSafetyContextOrd (fun l => l.reverse) progC9 ⟨[]⟩
      ctxAllSafe).Perm
    (checkBorrowsWithSafetyContextOrd (fun l => l) progC9 ⟨[]⟩ ctxAllSafe) := by
  exact analysis_output_perm_stable progC9 ⟨[]⟩ ctxAllSafe _ _
    (fun l => List.reverse_perm l) (fun l => List.Perm.refl l)

/-! ## Transitive outlives search (claim C7)

`ChainTo cs target a l` says the registered bounds contain a chain
`a → l₀ → l₁ → … → target`; `ChainAvoid` additionally requires the
intermediate names to avoid a given set (the in-progress nodes of the
depth-first search). -/

def IsLink (cs : List LifetimeBound) (a b : String) : Prop :=
  ∃ c, c ∈ cs ∧ c.longer = a ∧ c.shorter = b

def ChainTo (cs : List LifetimeBound) (target : String) :
    String → List String → Prop
  | a, [] => IsLink cs a target
  | a, b :: l => IsLink cs a b ∧ ChainTo cs target b l

def ChainAvoid (cs : List LifetimeBound) (target : String) (G : List String)
    (a : String) : Prop :=
  ∃ l, ChainTo cs target a l ∧ ∀ y ∈ l, y ∉ G

theorem chainTo_suffix (cs : List LifetimeBound) (target : String) :
    ∀ (l₁ : List String) (a b : String) (l₂ : List String),
      ChainTo cs target a (l₁ ++ b :: l₂) → ChainTo cs target b l₂ := by
  intro l₁
  induction l₁ with
  | nil =>
    intro a b l₂ h
    exact h.2
  | cons c l₁ ih =>
    intro a b l₂ h
    exact ih c b l₂ h.2

theorem chainAvoid_minimal_aux (cs : List LifetimeBound) (target : String)
    (G : List String) (a : String) :
    ∀ (n : Nat) (l : List String), l.length ≤ n → ChainTo cs target a l →
      (∀ y ∈ l, y ∉ G) →
      ∃ l', ChainTo cs target a l' ∧ (∀ y ∈ l', y ∉ G) ∧ a ∉ l' := by
  intro n
  induction n with
  | zero =>
    intro l hlen hchain havoid
    have hnil : l = [] := List.length_eq_zero.1 (Nat.le_zero.1 hlen)
    subst hnil
    exact ⟨[], hchain, havoid, by simp⟩
  | succ n ih =>
    intro l hlen hchain havoid
    by_cases hal : a ∈ l
    · rcases List.append_of_mem hal with ⟨l₁, l₂, rfl⟩
      refine ih l₂ ?_ (chainTo_suffix cs target l₁ a a l₂ hchain) ?_
      · simp only [List.length_append, List.length_cons] at hlen
        omega
      · intro y hy
        exact havoid y (by simp [hy])
    · exact ⟨l, hchain, havoid, hal⟩

/-- Every chain avoiding `G` can be shortened to one avoiding `G` whose
intermediate nodes also avoid the start node. -/
theorem chainAvoid_minimal (cs : List LifetimeBound) (target : String)
    (G : List String) (a : String) :
    ChainAvoid cs target G a →
      ∃ l, ChainTo cs target a l ∧ (∀ y ∈ l, y ∉ G) ∧ a ∉ l := by
  rintro ⟨l, hchain, havoid⟩
  exact chainAvoid_minimal_aux cs target G a l.length l le_rfl hchain havoid

theorem chainAvoid_mono (cs : List LifetimeBound) (target : String)
    {G G' : List String} (hsub : ∀ g ∈ G, g ∈ G') {a : String} :
    ChainAvoid cs target G' a → ChainAvoid cs target G a := by
  rintro ⟨l, hchain, havoid⟩
  exact ⟨l, hchain, fun y hy hyG => havoid y hy (hsub y hyG)⟩

theorem card_sdiff_cons_succ_le {univS : Finset String} {V : List String}
    {a : String} (ha : a ∈ univS) (hv : a ∉ V) :
    (univS \ (a :: V).toFinset).card + 1 ≤ (univS \ V.toFinset).card := by
  have herase : univS \ (a :: V).toFinset = (univS \ V.toFinset).erase a := by
    ext m
    simp only [Finset.mem_sdiff, List.toFinset_cons, Finset.mem_insert,
      Finset.mem_erase, List.mem_toFinset]
    constructor
    · rintro ⟨hm, hnot⟩
      push_neg at hnot
      exact ⟨hnot.1, hm, hnot.2⟩
    · rintro ⟨hne, hm, hnot⟩
      exact ⟨hm, by
        push_neg
        exact ⟨hne, hnot⟩⟩
  have hamem : a ∈ univS \ V.toFinset := by
    simp [Finset.mem_sdiff, ha, List.mem_toFinset, hv]
  rw [herase, Finset.card_erase_of_mem hamem]
  have hpos : 0 < (univS \ V.toFinset).card := Finset.card_pos.2 ⟨a, hamem⟩
  omega

theorem card_sdiff_le_of_subset {univS : Finset String} {V V' : List String}
    (h : ∀ x ∈ V, x ∈ V') :
    (univS \ V'.toFinset).card ≤ (univS \ V.toFinset).card := by
  apply Finset.card_le_card
  apply Finset.sdiff_subset_sdiff le_rfl
  intro x hx
  simp only [List.mem_toFinset] at hx ⊢
  exact h x hx

/-- Depth-first-search invariant: starting from a visited set whose
non-gray members have no chain to the target avoiding the gray set, a
`false` result extends the visited set (containing the query node) while
preserving that property.  Completeness of the search over chains is the
instance `G = []`. -/
theorem transGo_false_spec (cs : List LifetimeBound) (target : String)
    (univS : Finset String)
    (hU : ∀ c ∈ cs, c.shorter ∈ univS) :
    ∀ (fuel : Nat) (a : String) (V G : List String),
      a ∈ univS →
      (univS \ V.toFinset).card ≤ fuel →
      (∀ g ∈ G, g ∈ V) →
      (∀ v ∈ V, v ∉ G → ¬ ChainAvoid cs target G v) →
      (∀ x ∈ V, x ∈ (checkOutlivesTransGo cs target fuel a V).2) ∧
      ((checkOutlivesTransGo cs target fuel a V).1 = false →
        a ∈ (checkOutlivesTransGo cs target fuel a V).2 ∧
        ∀ v ∈ (checkOutlivesTransGo cs target fuel a V).2, v ∉ G →
          ¬ ChainAvoid cs target G v) := by
  intro fuel
  induction fuel with
  | zero =>
    intro a V G ha hcard hG hI
    have hav : a ∈ V := by
      by_contra hav
      have : a ∈ univS \ V.toFinset := by
        simp [Finset.mem_sdiff, ha, List.mem_toFinset, hav]
      have hpos : 0 < (univS \ V.toFinset).card := Finset.card_pos.2 ⟨a, this⟩
      omega
    simp only [checkOutlivesTransGo]
    exact ⟨fun x hx => hx, fun _ => ⟨hav, hI⟩⟩
  | succ fuel ihFuel =>
    intro a V G ha hcard hG hI
    by_cases hav : a ∈ V
    · simp only [checkOutlivesTransGo, if_pos hav]
      exact ⟨fun x hx => hx, fun _ => ⟨hav, hI⟩⟩
    · have hG' : ∀ g ∈ a :: G, g ∈ a :: V := by
        intro g hg
        rcases List.mem_cons.1 hg with rfl | hg
        · exact List.mem_cons_self _ _
        · exact List.mem_cons_of_mem _ (hG g hg)
      have hI' : ∀ v ∈ a :: V, v ∉ a :: G →
          ¬ ChainAvoid cs target (a :: G) v := by
        intro v hv hvG
        rcases List.mem_cons.1 hv with rfl | hv
        · exact absurd (List.mem_cons_self _ _) hvG
        · have hvGtail : v ∉ G := fun h => hvG (List.mem_cons_of_mem _ h)
          intro hch
          exact hI v hv hvGtail
            (chainAvoid_mono cs target (fun g hg => List.mem_cons_of_mem _ hg) hch)
      have hcard' : (univS \ (a :: V).toFinset).card ≤ fuel := by
        have := card_sdiff_cons_succ_le ha hav
        omega
      -- the loop lemma, by induction on the remaining constraint list
      have loopLem : ∀ (rest pre : List LifetimeBound), cs = pre ++ rest →
          ∀ (Vl : List String),
          (∀ g ∈ a :: G, g ∈ Vl) →
          (∀ v ∈ Vl, v ∉ a :: G → ¬ ChainAvoid cs target (a :: G) v) →
          (univS \ Vl.toFinset).card ≤ fuel →
          (∀ c ∈ pre, c.longer = a → ¬ c.shorter = target ∧ c.shorter ∈ Vl) →
          (∀ x ∈ Vl, x ∈ (checkOutlivesLoop target a
            (fun lg vis => checkOutlivesTransGo cs target fuel lg vis)
            rest Vl).2) ∧
          ((checkOutlivesLoop target a
            (fun lg vis => checkOutlivesTransGo cs target fuel lg vis)
            rest Vl).1 = false →
            (∀ v ∈ (checkOutlivesLoop target a
              (fun lg vis => checkOutlivesTransGo cs target fuel lg vis)
              rest Vl).2, v ∉ a :: G → ¬ ChainAvoid cs target (a :: G) v) ∧
            (∀ c ∈ cs, c.longer = a →
              ¬ c.shorter = target ∧ c.shorter ∈ (checkOutlivesLoop target a
                (fun lg vis => checkOutlivesTransGo cs target fuel lg vis)
                rest Vl).2)) := by
        intro rest
        induction rest with
        | nil =>
          intro pre hsplit Vl hGl hIl hcl hpre
          simp only [checkOutlivesLoop]
          refine ⟨fun x hx => hx, fun _ => ⟨hIl, ?_⟩⟩
          intro c hc hlong
          exact hpre c (by simpa [hsplit] using hc) hlong
        | cons c rs ihRest =>
          intro pre hsplit Vl hGl hIl hcl hpre
          have hsplit' : cs = (pre ++ [c]) ++ rs := by
            simp [hsplit]
          have hcmem : c ∈ cs := by
            rw [hsplit]
            simp
          by_cases hclong : c.longer = a
          · by_cases hcshort : c.shorter = target
            · simp only [checkOutlivesLoop, if_pos hclong, if_pos hcshort]
              exact ⟨fun x hx => hx, fun h => by simp at h⟩
            · have hru := ihFuel c.shorter Vl (a :: G) (hU c hcmem) hcl hGl hIl
              by_cases hr1 : (checkOutlivesTransGo cs target fuel c.shorter
                  Vl).1 = true
              · simp only [checkOutlivesLoop, if_pos hclong, if_neg hcshort,
                  if_pos hr1]
                exact ⟨hru.1, fun h => by rw [h] at hr1; simp at hr1⟩
              · have hr1' : (checkOutlivesTransGo cs target fuel c.shorter
                    Vl).1 = false := by
                  cases h : (checkOutlivesTransGo cs target fuel c.shorter
                      Vl).1
                  · rfl
                  · exact absurd h hr1
                have hspec := hru.2 hr1'
                have hnext := ihRest (pre ++ [c]) hsplit'
                  (checkOutlivesTransGo cs target fuel c.shorter Vl).2
                  (fun g hg => hru.1 g (hGl g hg))
                  hspec.2
                  (le_trans (card_sdiff_le_of_subset hru.1) hcl)
                  (by
                    intro c' hc' hlong'
                    rcases List.mem_append.1 hc' with hc' | hc'
                    · have := hpre c' hc' hlong'
                      exact ⟨this.1, hru.1 _ this.2⟩
                    · simp only [List.mem_singleton] at hc'
                      subst hc'
                      exact ⟨hcshort, hspec.1⟩)
                simp only [checkOutlivesLoop, if_pos hclong, if_neg hcshort,
                  if_neg hr1]
                exact ⟨fun x hx => hnext.1 x (hru.1 x hx), hnext.2⟩
          · have hnext := ihRest (pre ++ [c]) hsplit' Vl hGl hIl hcl
              (by
                intro c' hc' hlong'
                rcases List.mem_append.1 hc' with hc' | hc'
                · exact hpre c' hc' hlong'
                · simp only [List.mem_singleton] at hc'
                  subst hc'
                  exact absurd hlong' hclong)
            simp only [checkOutlivesLoop, if_neg hclong]
            exact hnext
      have hloop := loopLem cs [] (by simp) (a :: V) hG' hI' hcard'
        (by intro c hc; simp at hc)
      simp only [checkOutlivesTransGo, if_neg hav]
      constructor
      · intro x hx
        exact hloop.1 x (List.mem_cons_of_mem _ hx)
      · intro hfalse
        have hspec := hloop.2 hfalse
        have haL : a ∈ (checkOutlivesLoop target a
            (fun lg vis => checkOutlivesTransGo cs target fuel lg vis)
            cs (a :: V)).2 := hloop.1 a (List.mem_cons_self _ _)
        have keyA : ¬ ChainAvoid cs target G a := by
          intro hca
          rcases chainAvoid_minimal cs target G a hca with
            ⟨l, hchain, havoid, hnotin⟩
          cases l with
          | nil =>
            rcases hchain with ⟨c, hc, hcl, hcs⟩
            exact (hspec.2 c hc hcl).1 hcs
          | cons b l₂ =>
            rcases hchain.1 with ⟨c, hc, hcl, hcs⟩
            have hbL : b ∈ (checkOutlivesLoop target a
                (fun lg vis => checkOutlivesTransGo cs target fuel lg vis)
                cs (a :: V)).2 := hcs ▸ (hspec.2 c hc hcl).2
            have hbG : b ∉ a :: G := by
              intro hmem
              rcases List.mem_cons.1 hmem with rfl | hbG
              · exact hnotin (List.mem_cons_self _ _)
              · exact havoid b (List.mem_cons_self _ _) hbG
            apply hspec.1 b hbL hbG
            refine ⟨l₂, hchain.2, ?_⟩
            intro y hy hmem
            rcases List.mem_cons.1 hmem with rfl | hyG
            · exact hnotin (List.mem_cons_of_mem _ hy)
            · exact havoid y (List.mem_cons_of_mem _ hy) hyG
        refine ⟨haL, ?_⟩
        intro v hvL hvG
        by_cases hva : v = a
        · subst hva
          exact keyA
        · have hvG' : v ∉ a :: G := by
            intro hmem
            rcases List.mem_cons.1 hmem with rfl | h
            · exact hva rfl
            · exact hvG h
          have hnv := hspec.1 v hvL hvG'
          rintro ⟨l, hchain, havoid⟩
          by_cases hal : a ∈ l
          · rcases List.append_of_mem hal with ⟨l₁, l₂, rfl⟩
            apply keyA
            refine ⟨l₂, chainTo_suffix cs target l₁ v a l₂ hchain, ?_⟩
            intro y hy
            exact havoid y (by simp [hy])
          · apply hnv
            refine ⟨l, hchain, ?_⟩
            intro y hy hmem
            rcases List.mem_cons.1 hmem with rfl | hyG
            · exact hal hy
            · exact havoid y hy hyG

/-- **C7.** The annotated lifetime checker's outlives relation is
reflexive (`check_outlives` is true on any pair of equal lifetime names),
and transitive over the registered bounds: whenever the registered
`LifetimeBound`s contain a chain of any length from `a` down to `target`,
`check_outlives(a, target)` returns `true`; and the visited-set guard
makes the search terminate (with `false`) on cyclic bound sets that do
not reach the queried lifetime. -/
theorem check_outlives_refl_trans (sc : LifetimeScope) (a b target : String)
    (l : List String) (hchain : ChainTo sc.constraints target a l) :
    checkOutlives sc b b = true ∧ checkOutlives sc a target = true ∧
    checkOutlives ⟨[], [⟨"a", "b"⟩, ⟨"b", "a"⟩], []⟩ "a" "z" = false := by
  refine ⟨by simp [checkOutlives], ?_, by decide⟩
  by_cases hat : a = target
  · simp [checkOutlives, hat]
  · simp only [checkOutlives, if_neg hat]
    split
    · rfl
    · by_contra hne
      have hfalse : (checkOutlivesTransGo sc.constraints target
          (sc.constraints.length + 1) a []).1 = false := by
        cases h : (checkOutlivesTransGo sc.constraints target
            (sc.constraints.length + 1) a []).1
        · rfl
        · exact absurd h hne
      set univS : Finset String :=
        insert a (sc.constraints.map LifetimeBound.shorter).toFinset
      have hU : ∀ c ∈ sc.constraints, c.shorter ∈ univS := by
        intro c hc
        exact Finset.mem_insert_of_mem (List.mem_toFinset.2
          (List.mem_map.2 ⟨c, hc, rfl⟩))
      have ha : a ∈ univS := Finset.mem_insert_self _ _
      have hcard : (univS \ ([] : List String).toFinset).card ≤
          sc.constraints.length + 1 := by
        simp only [List.toFinset_nil, Finset.sdiff_empty]
        calc univS.card
            ≤ (sc.constraints.map LifetimeBound.shorter).toFinset.card + 1 :=
              Finset.card_insert_le _ _
          _ ≤ (sc.constraints.map LifetimeBound.shorter).length + 1 :=
              Nat.add_le_add_right (List.toFinset_card_le _) 1
          _ = sc.constraints.length + 1 := by rw [List.length_map]
      have hspec := (transGo_false_spec sc.constraints target univS hU
        (sc.constraints.length + 1) a [] [] ha hcard
        (by intro g hg; exact absurd hg (List.not_mem_nil g))
        (by intro v hv _; exact absurd hv (List.not_mem_nil v))).2 hfalse
      exact hspec.2 a hspec.1 (List.not_mem_nil a)
        ⟨l, hchain, fun y _ => List.not_mem_nil y⟩

/-- Closed instance of C7: reflexivity at `"q"`, the three-bound chain
`a → b → c → d` yields `check_outlives(a, d) = true`, and the cyclic
two-bound set terminates with `false` on an unreachable target. -/
theorem check_outlives_refl_trans_witness :
    checkOutlives ⟨[], [⟨"a", "b"⟩, ⟨"b", "c"⟩, ⟨"c", "d"⟩], []⟩ "q" "q"
      = true ∧
    checkOutlives ⟨[], [⟨"a", "b"⟩, ⟨"b", "c"⟩, ⟨"c", "d"⟩], []⟩ "a" "d"
      = true ∧
    checkOutlives ⟨[], [⟨"a", "b"⟩, ⟨"b", "a"⟩], []⟩ "a" "z" = false :=
  check_outlives_refl_trans
    ⟨[], [⟨"a", "b"⟩, ⟨"b", "c"⟩, ⟨"c", "d"⟩], []⟩ "a" "q" "d" ["b", "c"]
    ⟨⟨⟨"a", "b"⟩, by decide, rfl, rfl⟩,
     ⟨⟨"b", "c"⟩, by decide, rfl, rfl⟩,
     ⟨⟨"c", "d"⟩, by decide, rfl, rfl⟩⟩
